import Mathlib

/-!
ClientThread pool (intel-hda-driver-utils/client-thread.cpp)

A shallow embedding of the static worker pool of `ClientThread`:
`AddClientLocked`, `ShutdownPoolLocked` and the state they share
(`port_`, `active_client_count_`, `active_thread_count_`, `thread_pool_`).

* `uint32_t` counters are natural numbers, every `++` / `--` taken modulo `2^32`.
* The kernel and the C library are an environment: the status of
  `mx::port::create`, and for each turn of the growth loop whether the
  allocation succeeded and what `thrd_create_with_name` returned.
* Calls into the environment are recorded, in program order, as a list of `Effect`s.
* `printf` / `LOG` output is not modelled.
-/

namespace ClientThreadPool

/-! ## Machine integers and status codes -/

/-- The number of values of a `uint32_t`. -/
def UINT32_MOD : Nat := 4294967296

/-- The statement `x++` on a `uint32_t`. -/
def u32_inc (x : Nat) : Nat := (x + 1) % UINT32_MOD

/-- The statement `x--` on a `uint32_t`: `0` wraps to `2^32 - 1`.  This is
`(x + (2^32 - 1)) % 2^32`, see `u32_dec_eq_mod`. -/
def u32_dec (x : Nat) : Nat := if x = 0 then UINT32_MOD - 1 else (x - 1) % UINT32_MOD

/-- The type `mx_status_t` (a signed 32 bit integer). -/
abbrev mx_status_t := Int

/-- Modelled from the spec: the success status, a constant of `magenta/errors.h`,
which is not among the sources (there it is 0). -/
def NO_ERROR : mx_status_t := 0

/-- Modelled from the spec: the "internal failure" status, a constant of
`magenta/errors.h`, which is not among the sources (there it is -1).  Only its
being different from `NO_ERROR` is used. -/
def ERR_INTERNAL : mx_status_t := -1

/-- Modelled from the spec: the "out of memory" status, a constant of
`magenta/errors.h`, which is not among the sources (there it is -4).  Only its
being different from `NO_ERROR` is used. -/
def ERR_NO_MEMORY : mx_status_t := -4

/-- Modelled from the spec: the value `thrd_create_with_name` returns on success,
a constant of the C library's `threads.h`, which is not among the sources. -/
def thrd_success : Int := 0

/-- The value of `mx_system_get_num_cpus()`, a `uint32_t`, on a machine with
`core_count` cores. -/
def mx_system_get_num_cpus (core_count : Nat) : Nat := core_count % UINT32_MOD

/-! ## Data model -/

/-- The handle `mx::port`; only its validity is observable here. -/
structure mx_port where
  is_valid : Bool
  deriving DecidableEq, Repr

/-- The method `mx::port::reset()`: closes the handle. -/
def mx_port.reset ( _p : mx_port) : mx_port := ⟨false⟩

/-- A worker object: `ClientThread(id)` stores the index it was built with in
its name, `ihda-client-<id>`. -/
structure ClientThread where
  id : Nat
  deriving DecidableEq, Repr

/-- The static members of `ClientThread`. -/
structure PoolState where
  port_ : mx_port
  active_client_count_ : Nat
  active_thread_count_ : Nat
  thread_pool_ : List ClientThread
  deriving DecidableEq, Repr

/-- The static initialisers: no port, no clients, no threads, empty list. -/
def PoolState.initial : PoolState :=
  { port_ := ⟨false⟩, active_client_count_ := 0, active_thread_count_ := 0, thread_pool_ := [] }

/-- The calls the pool makes into the kernel and the C library. -/
inductive Effect where
  /-- The call `mx::port::create(0u, &port_)`, returning `res`. -/
  | port_create (res : mx_status_t)
  /-- The allocation `new (&ac) ClientThread(id)`; `ok` is `ac.check()`. -/
  | new_ClientThread (id : Nat) (ok : Bool)
  /-- The call `thrd_create_with_name` for the worker, returning `musl_res`. -/
  | thrd_create (thread : ClientThread) (musl_res : Int)
  /-- The call `port_.reset()` on a valid port. -/
  | port_reset
  /-- The call `thrd_join` on the thread of the worker. -/
  | thrd_join (thread : ClientThread)
  /-- The check `MX_DEBUG_ASSERT(cond)`, evaluated with `cond = holds`. -/
  | debug_assert (holds : Bool)
  deriving DecidableEq, Repr

/-- What the environment answers in one turn of the growth loop. -/
structure SpawnOutcome where
  /-- the value of `ac.check()` after `new (&ac) ClientThread(..)` -/
  ac_check : Bool
  /-- the value `thrd_create_with_name` returns -/
  musl_res : Int
  deriving DecidableEq, Repr

/-- What the environment answers during one `AddClientLocked` call. -/
structure AddEnv where
  /-- the status of `mx::port::create` (consulted only when the port is invalid) -/
  port_create : mx_status_t
  /-- the answers for the turns of the growth loop, in order -/
  spawn : Nat → SpawnOutcome

/-- The result of a call: returned status, state left behind, calls made. -/
structure Outcome where
  res : mx_status_t
  state : PoolState
  trace : List Effect
  deriving DecidableEq, Repr

/-! ## `AddClientLocked` -/

/-- The `while` loop of `AddClientLocked` (lines 48-75), entered in state `s`. -/
def growLoop (core_count : Nat) (spawn : Nat → SpawnOutcome) (s : PoolState) : Outcome :=
  if _h : s.active_thread_count_ < s.active_client_count_ ∧
      s.active_thread_count_ < mx_system_get_num_cpus core_count then
    let thread : ClientThread := ⟨s.active_thread_count_⟩
    if (spawn 0).ac_check = false then
      { res := ERR_NO_MEMORY
        state := { s with active_client_count_ := u32_dec s.active_client_count_ }
        trace := [Effect.new_ClientThread s.active_thread_count_ false] }
    else if (spawn 0).musl_res ≠ thrd_success then
      { res := ERR_INTERNAL
        state := { s with active_client_count_ := u32_dec s.active_client_count_ }
        trace := [Effect.new_ClientThread s.active_thread_count_ true,
                  Effect.thrd_create thread (spawn 0).musl_res] }
    else
      let r := growLoop core_count (fun i => spawn (i + 1))
        { s with active_thread_count_ := u32_inc s.active_thread_count_
                 thread_pool_ := thread :: s.thread_pool_ }
      { res := r.res
        state := r.state
        trace := Effect.new_ClientThread s.active_thread_count_ true ::
                 Effect.thrd_create thread (spawn 0).musl_res :: r.trace }
  else
    { res := NO_ERROR, state := s, trace := [] }
termination_by mx_system_get_num_cpus core_count - s.active_thread_count_
decreasing_by
  simp only [u32_inc, mx_system_get_num_cpus, UINT32_MOD] at *
  omega

/-- The function `ClientThread::AddClientLocked` (lines 28-78). -/
def AddClientLocked (core_count : Nat) (env : AddEnv) (s : PoolState) : Outcome :=
  if s.port_.is_valid = false then
    if env.port_create ≠ NO_ERROR then
      { res := env.port_create, state := s, trace := [Effect.port_create env.port_create] }
    else
      let r := growLoop core_count env.spawn
        { s with port_ := ⟨true⟩, active_client_count_ := u32_inc s.active_client_count_ }
      { res := r.res, state := r.state, trace := Effect.port_create env.port_create :: r.trace }
  else
    growLoop core_count env.spawn
      { s with active_client_count_ := u32_inc s.active_client_count_ }

/-! ## `ShutdownPoolLocked` -/

/-- The `while` loop of `ShutdownPoolLocked` (lines 96-103): pop the front
worker and join its thread until the list is empty.  Returns the list left
behind and the joins made. -/
def joinLoop : List ClientThread → List ClientThread × List Effect
  | [] => ([], [])
  | thread :: rest =>
    let r := joinLoop rest
    (r.1, Effect.thrd_join thread :: r.2)

/-- The function `ClientThread::ShutdownPoolLocked` (lines 80-106): the state
left behind and the calls made. -/
def ShutdownPoolLocked (s : PoolState) : PoolState × List Effect :=
  if s.active_client_count_ > 0 then
    (s, [])
  else if s.port_.is_valid = false then
    (s, [Effect.debug_assert s.thread_pool_.isEmpty])
  else
    let r := joinLoop s.thread_pool_
    ({ s with port_ := s.port_.reset, thread_pool_ := r.1, active_thread_count_ := 0 },
     Effect.port_reset :: r.2)

/-- Modelled from the spec: the deregistration entry point `remove_client`,
which is not among the sources: it decrements `active_client_count_` (when it
is positive) and then runs `ShutdownPoolLocked`. -/
def remove_client (s : PoolState) : PoolState × List Effect :=
  ShutdownPoolLocked
    { s with active_client_count_ :=
        if s.active_client_count_ > 0 then u32_dec s.active_client_count_
        else s.active_client_count_ }

/-! ## Sequences of calls -/

/-- A call on the pool's control surface, with the environment's answers. -/
inductive Call where
  | add_client (env : AddEnv)
  | remove_client

/-- The state after one call. -/
def step (core_count : Nat) (s : PoolState) : Call → PoolState
  | Call.add_client env => (AddClientLocked core_count env s).state
  | Call.remove_client => (remove_client s).1

/-- The state after a sequence of calls, made in list order. -/
def run (core_count : Nat) (s : PoolState) (calls : List Call) : PoolState :=
  calls.foldl (step core_count) s

/-- The states the pool can be in after a finite sequence of calls from the
initial state. -/
def Reachable (core_count : Nat) (s : PoolState) : Prop :=
  ∃ calls : List Call, run core_count PoolState.initial calls = s

/-- An environment in which everything succeeds. -/
def AddEnv.success : AddEnv :=
  { port_create := NO_ERROR, spawn := fun _ => { ac_check := true, musl_res := thrd_success } }

/-- An environment in which the port can be created and every allocation fails. -/
def AddEnv.allocFails : AddEnv :=
  { port_create := NO_ERROR, spawn := fun _ => { ac_check := false, musl_res := thrd_success } }

/-- The workers with indices `t, ..., t + j - 1`, newest first: what `j`
successful turns of the growth loop push onto the front of the list. -/
def spawned (t j : Nat) : List ClientThread :=
  ((List.range' t j).map ClientThread.mk).reverse

/-- The calls made by `j` successful turns of the growth loop that start at
thread count `t`. -/
def spawnTrace (t j : Nat) : List Effect :=
  (List.range' t j).flatMap fun i =>
    [Effect.new_ClientThread i true, Effect.thrd_create ⟨i⟩ thrd_success]

/-- The state in which `AddClientLocked` enters its growth loop: the port is
there and the client has been counted. -/
def growEntry (s : PoolState) : PoolState :=
  { s with port_ := ⟨true⟩, active_client_count_ := u32_inc s.active_client_count_ }

/-- The state left behind by `n` consecutive `remove_client` calls, and the
calls they make, in order. -/
def remove_clients : Nat → PoolState → PoolState × List Effect
  | 0, s => (s, [])
  | n + 1, s =>
    let r := remove_client s
    let r' := remove_clients n r.1
    (r'.1, r.2 ++ r'.2)

/-- The state after `n` consecutive `AddClientLocked` calls from the initial
state, in each of which port creation, allocation and thread creation succeed. -/
def add_clients (core_count n : Nat) : PoolState :=
  run core_count PoolState.initial (List.replicate n (Call.add_client AddEnv.success))

/-- The facts that hold of the pool between calls. -/
structure PoolInv (core_count : Nat) (s : PoolState) : Prop where
  /-- the list holds the workers `active_thread_count_ - 1, ..., 0` -/
  pool_eq : s.thread_pool_ = spawned 0 s.active_thread_count_
  /-- the client count is a `uint32_t` -/
  client_lt : s.active_client_count_ < UINT32_MOD
  /-- there are never more threads than cores -/
  thread_le : s.active_thread_count_ ≤ mx_system_get_num_cpus core_count
  /-- the growth loop has run to its end -/
  demand_met : s.active_client_count_ ≤ s.active_thread_count_ ∨
    mx_system_get_num_cpus core_count ≤ s.active_thread_count_
  /-- without a port there are neither clients nor threads -/
  closed_idle : s.port_.is_valid = false →
    s.active_client_count_ = 0 ∧ s.active_thread_count_ = 0

/-- What the growth loop does when entered in state `s` with answers `spawn`:
it makes `j` successful turns, then either stops because its condition is
false, or fails in turn `j`. -/
def GrowSpec (core_count : Nat) (spawn : Nat → SpawnOutcome) (s : PoolState) (r : Outcome) :
    Prop :=
  ∃ j : Nat,
    r.state.port_ = s.port_ ∧
    r.state.active_thread_count_ = s.active_thread_count_ + j ∧
    r.state.thread_pool_ = spawned s.active_thread_count_ j ++ s.thread_pool_ ∧
    (∀ i, i < j → (spawn i).ac_check = true ∧ (spawn i).musl_res = thrd_success) ∧
    (j = 0 ∨ (s.active_thread_count_ + j ≤ s.active_client_count_ ∧
        s.active_thread_count_ + j ≤ mx_system_get_num_cpus core_count)) ∧
    ((r.res = NO_ERROR ∧
        r.state.active_client_count_ = s.active_client_count_ ∧
        r.trace = spawnTrace s.active_thread_count_ j ∧
        ¬ (s.active_thread_count_ + j < s.active_client_count_ ∧
            s.active_thread_count_ + j < mx_system_get_num_cpus core_count)) ∨
     (s.active_thread_count_ + j < s.active_client_count_ ∧
        s.active_thread_count_ + j < mx_system_get_num_cpus core_count ∧
        r.state.active_client_count_ = u32_dec s.active_client_count_ ∧
        ((r.res = ERR_NO_MEMORY ∧
            (spawn j).ac_check = false ∧
            r.trace = spawnTrace s.active_thread_count_ j ++
                [Effect.new_ClientThread (s.active_thread_count_ + j) false]) ∨
         (r.res = ERR_INTERNAL ∧
            (spawn j).ac_check = true ∧ (spawn j).musl_res ≠ thrd_success ∧
            r.trace = spawnTrace s.active_thread_count_ j ++
                [Effect.new_ClientThread (s.active_thread_count_ + j) true,
                 Effect.thrd_create ⟨s.active_thread_count_ + j⟩ (spawn j).musl_res]))))

/-- The workers a trace joins, in order. -/
def joined (tr : List Effect) : List ClientThread :=
  tr.filterMap fun e =>
    match e with
    | Effect.thrd_join thread => some thread
    | _ => none

/-- A pool with two clients and two workers, as left by two successful
registrations. -/
def PoolState.two_clients : PoolState :=
  { port_ := ⟨true⟩, active_client_count_ := 2, active_thread_count_ := 2,
    thread_pool_ := [⟨1⟩, ⟨0⟩] }

/-! ## Direct calls of `ShutdownPoolLocked` -/

/-- A call on the pool, `ShutdownPoolLocked` included. -/
inductive PoolCall where
  | add_client (env : AddEnv)
  | remove_client
  | shutdown_pool

/-- The state after one call. -/
def stepPool (core_count : Nat) (s : PoolState) : PoolCall → PoolState
  | PoolCall.add_client env => (AddClientLocked core_count env s).state
  | PoolCall.remove_client => (remove_client s).1
  | PoolCall.shutdown_pool => (ShutdownPoolLocked s).1

/-- The state after a sequence of calls, made in list order. -/
def runPool (core_count : Nat) (s : PoolState) (calls : List PoolCall) : PoolState :=
  calls.foldl (stepPool core_count) s

/-- Whether a call into the environment is an allocation of a worker. -/
def Effect.isAlloc : Effect → Bool
  | Effect.new_ClientThread _ _ => true
  | _ => false

/-- Whether a call into the environment is a thread creation. -/
def Effect.isThrdCreate : Effect → Bool
  | Effect.thrd_create _ _ => true
  | _ => false

/-! ## The worker loop, `ClientThread::Main` -/

/-- The constants of `magenta/syscalls/port.h` and `magenta/types.h` that
`Main` uses; the headers are not among the sources, so the constants are
parameters of the model. -/
structure PortConsts where
  /-- the packet type of a channel I/O signal -/
  MX_PORT_PKT_TYPE_IOSN : Nat
  /-- the signal bit of a closed peer -/
  MX_CHANNEL_PEER_CLOSED : Nat
  deriving DecidableEq, Repr

/-- Values for the constants, used in the examples. -/
def PortConsts.sample : PortConsts :=
  { MX_PORT_PKT_TYPE_IOSN := 1, MX_CHANNEL_PEER_CLOSED := 4 }

/-- The header of a port packet: `pkt.hdr.key` and `pkt.hdr.type`. -/
structure mx_packet_header_t where
  key : Nat
  type : Nat
  deriving DecidableEq, Repr

/-- The packet `mx_io_packet_t` that `port_.wait` fills in. -/
structure mx_io_packet_t where
  hdr : mx_packet_header_t
  signals : Nat
  deriving DecidableEq, Repr

/-- A channel, as `DriverChannel::GetActiveChannel` hands it out; only its
identity matters here. -/
structure DriverChannel where
  id : Nat
  deriving DecidableEq, Repr

/-- What the environment answers in one turn of the loop of `Main`. -/
structure Turn where
  /-- the value of `port_.is_valid()` at the loop test -/
  port_valid : Bool
  /-- the status `port_.wait` returns -/
  wait_res : mx_status_t
  /-- the packet `port_.wait` delivers -/
  pkt : mx_io_packet_t
  /-- the result of `DriverChannel::GetActiveChannel(pkt.hdr.key)`, `none` for `nullptr` -/
  channel : Option DriverChannel
  /-- the status `channel->Process(pkt)` returns -/
  process_res : mx_status_t
  deriving DecidableEq, Repr

/-- The calls a worker makes. -/
inductive WorkerEffect where
  /-- The call `port_.wait` returning `NO_ERROR` and the packet. -/
  | wait_packet (pkt : mx_io_packet_t)
  /-- The call `port_.wait` returning a status other than `NO_ERROR`. -/
  | wait_failed (res : mx_status_t)
  /-- The lookup `DriverChannel::GetActiveChannel(key)` and its result. -/
  | GetActiveChannel (key : Nat) (found : Option DriverChannel)
  /-- The call `channel->Process(pkt)` returning `res`. -/
  | Process (channel : DriverChannel) (pkt : mx_io_packet_t) (res : mx_status_t)
  /-- The call `channel->Deactivate(abrupt)`. -/
  | Deactivate (channel : DriverChannel) (abrupt : Bool)
  deriving DecidableEq, Repr

/-- The body of the loop of `Main` after a successful wait (lines 122-146):
the calls made for the packet of this turn. -/
def handlePacket (k : PortConsts) (turn : Turn) : List WorkerEffect :=
  if turn.pkt.hdr.type ≠ k.MX_PORT_PKT_TYPE_IOSN then
    []
  else
    match turn.channel with
    | none => [WorkerEffect.GetActiveChannel turn.pkt.hdr.key none]
    | some channel =>
      if turn.pkt.signals &&& k.MX_CHANNEL_PEER_CLOSED ≠ 0 then
        [WorkerEffect.GetActiveChannel turn.pkt.hdr.key (some channel),
         WorkerEffect.Deactivate channel true]
      else if turn.process_res ≠ NO_ERROR then
        [WorkerEffect.GetActiveChannel turn.pkt.hdr.key (some channel),
         WorkerEffect.Process channel turn.pkt turn.process_res,
         WorkerEffect.Deactivate channel true]
      else
        [WorkerEffect.GetActiveChannel turn.pkt.hdr.key (some channel),
         WorkerEffect.Process channel turn.pkt turn.process_res]

/-- The function `ClientThread::Main` (lines 108-152), run against the answers
of the environment for finitely many turns of its loop.  The result is the
value returned, `none` when the worker is still in its loop after the last
recorded turn, and the calls made. -/
def Main (k : PortConsts) : List Turn → Option Int × List WorkerEffect
  | [] => (none, [])
  | turn :: rest =>
    if turn.port_valid = false then
      (some 0, [])
    else if turn.wait_res ≠ NO_ERROR then
      (some 0, [WorkerEffect.wait_failed turn.wait_res])
    else
      let r := Main k rest
      (r.1, WorkerEffect.wait_packet turn.pkt :: (handlePacket k turn ++ r.2))

/-- The calls of the turns in which a packet is received: the turns before the
first failed wait. -/
def handledTrace (k : PortConsts) (turns : List Turn) : List WorkerEffect :=
  (turns.takeWhile fun turn => decide (turn.wait_res = NO_ERROR)).flatMap fun turn =>
    WorkerEffect.wait_packet turn.pkt :: handlePacket k turn

/-- The failed wait that ends the loop, if there is one. -/
def failedWait (turns : List Turn) : List WorkerEffect :=
  match turns.dropWhile fun turn => decide (turn.wait_res = NO_ERROR) with
  | [] => []
  | turn :: _ => [WorkerEffect.wait_failed turn.wait_res]

/-- A turn in which a packet of the expected type arrives for channel 7, with
the signals given, and `Process` answers `process_res`. -/
def Turn.io (signals : Nat) (process_res : mx_status_t) : Turn :=
  { port_valid := true, wait_res := NO_ERROR,
    pkt := { hdr := { key := 7, type := 1 }, signals := signals },
    channel := some ⟨7⟩, process_res := process_res }

/-- A turn in which a packet of the expected type arrives for key 9, which
resolves to no active channel. -/
def Turn.miss : Turn :=
  { port_valid := true, wait_res := NO_ERROR,
    pkt := { hdr := { key := 9, type := 1 }, signals := 1 },
    channel := none, process_res := NO_ERROR }

/-- A turn in which a packet of an unexpected type arrives, with the
peer-closed bit set. -/
def Turn.unexpected : Turn :=
  { port_valid := true, wait_res := NO_ERROR,
    pkt := { hdr := { key := 7, type := 2 }, signals := 4 },
    channel := some ⟨7⟩, process_res := NO_ERROR }

/-- A turn in which the wait fails. -/
def Turn.waitFails : Turn :=
  { port_valid := true, wait_res := ERR_INTERNAL,
    pkt := { hdr := { key := 0, type := 0 }, signals := 0 },
    channel := none, process_res := NO_ERROR }

/-! ## The growth loop -/

theorem spawned_zero (t : Nat) : spawned t 0 = [] := by
  simp [spawned]

theorem spawned_succ (t j : Nat) : spawned t (j + 1) = spawned (t + 1) j ++ [⟨t⟩] := by
  simp [spawned, List.range'_succ]

theorem spawnTrace_zero (t : Nat) : spawnTrace t 0 = [] := by
  simp [spawnTrace]

theorem spawnTrace_succ (t j : Nat) :
    spawnTrace t (j + 1) =
      Effect.new_ClientThread t true :: Effect.thrd_create ⟨t⟩ thrd_success ::
        spawnTrace (t + 1) j := by
  simp [spawnTrace, List.range'_succ]

theorem u32_dec_eq_mod (x : Nat) : u32_dec x = (x + (UINT32_MOD - 1)) % UINT32_MOD := by
  unfold u32_dec UINT32_MOD
  split <;> omega

theorem u32_inc_of_lt_cpus {t core_count : Nat} (h : t < mx_system_get_num_cpus core_count) :
    u32_inc t = t + 1 := by
  simp only [u32_inc, mx_system_get_num_cpus, UINT32_MOD] at *
  omega

theorem growLoop_stop (core_count : Nat) (spawn : Nat → SpawnOutcome) (s : PoolState)
    (h : ¬ (s.active_thread_count_ < s.active_client_count_ ∧
      s.active_thread_count_ < mx_system_get_num_cpus core_count)) :
    growLoop core_count spawn s = { res := NO_ERROR, state := s, trace := [] } := by
  rw [growLoop, dif_neg h]

theorem growLoop_alloc_fail (core_count : Nat) (spawn : Nat → SpawnOutcome) (s : PoolState)
    (h : s.active_thread_count_ < s.active_client_count_ ∧
      s.active_thread_count_ < mx_system_get_num_cpus core_count)
    (ha : (spawn 0).ac_check = false) :
    growLoop core_count spawn s =
      { res := ERR_NO_MEMORY
        state := { s with active_client_count_ := u32_dec s.active_client_count_ }
        trace := [Effect.new_ClientThread s.active_thread_count_ false] } := by
  rw [growLoop, dif_pos h]
  exact if_pos ha

theorem growLoop_thrd_fail (core_count : Nat) (spawn : Nat → SpawnOutcome) (s : PoolState)
    (h : s.active_thread_count_ < s.active_client_count_ ∧
      s.active_thread_count_ < mx_system_get_num_cpus core_count)
    (ha : ¬ (spawn 0).ac_check = false) (hm : (spawn 0).musl_res ≠ thrd_success) :
    growLoop core_count spawn s =
      { res := ERR_INTERNAL
        state := { s with active_client_count_ := u32_dec s.active_client_count_ }
        trace := [Effect.new_ClientThread s.active_thread_count_ true,
                  Effect.thrd_create ⟨s.active_thread_count_⟩ (spawn 0).musl_res] } := by
  rw [growLoop, dif_pos h]
  exact (if_neg ha).trans (if_pos hm)

theorem growLoop_turn (core_count : Nat) (spawn : Nat → SpawnOutcome) (s : PoolState)
    (h : s.active_thread_count_ < s.active_client_count_ ∧
      s.active_thread_count_ < mx_system_get_num_cpus core_count)
    (ha : ¬ (spawn 0).ac_check = false) (hm : ¬ (spawn 0).musl_res ≠ thrd_success) :
    growLoop core_count spawn s =
      { res := (growLoop core_count (fun i => spawn (i + 1))
          { s with active_thread_count_ := u32_inc s.active_thread_count_
                   thread_pool_ := ⟨s.active_thread_count_⟩ :: s.thread_pool_ }).res
        state := (growLoop core_count (fun i => spawn (i + 1))
          { s with active_thread_count_ := u32_inc s.active_thread_count_
                   thread_pool_ := ⟨s.active_thread_count_⟩ :: s.thread_pool_ }).state
        trace := Effect.new_ClientThread s.active_thread_count_ true ::
          Effect.thrd_create ⟨s.active_thread_count_⟩ (spawn 0).musl_res ::
          (growLoop core_count (fun i => spawn (i + 1))
            { s with active_thread_count_ := u32_inc s.active_thread_count_
                     thread_pool_ := ⟨s.active_thread_count_⟩ :: s.thread_pool_ }).trace } := by
  rw [growLoop, dif_pos h]
  exact (if_neg ha).trans (if_neg hm)

/-- The growth loop meets `GrowSpec`. -/
theorem growLoop_spec (core_count : Nat) (spawn : Nat → SpawnOutcome) (s : PoolState) :
    GrowSpec core_count spawn s (growLoop core_count spawn s) := by
  induction spawn, s using growLoop.induct core_count with
  | case1 spawn s hc ha =>
    rw [growLoop_alloc_fail core_count spawn s hc ha]
    refine ⟨0, rfl, rfl, ?_, ?_, Or.inl rfl, Or.inr ⟨hc.1, hc.2, rfl, Or.inl ⟨rfl, ha, ?_⟩⟩⟩
    · rw [spawned_zero]; rfl
    · intro i hi; exact absurd hi (Nat.not_lt_zero i)
    · rw [spawnTrace_zero]; rfl
  | case2 spawn s hc ha hm =>
    rw [growLoop_thrd_fail core_count spawn s hc ha hm]
    have ha' : (spawn 0).ac_check = true := by simpa using ha
    refine ⟨0, rfl, rfl, ?_, ?_, Or.inl rfl,
      Or.inr ⟨hc.1, hc.2, rfl, Or.inr ⟨rfl, ha', hm, ?_⟩⟩⟩
    · rw [spawned_zero]; rfl
    · intro i hi; exact absurd hi (Nat.not_lt_zero i)
    · rw [spawnTrace_zero]; rfl
  | case3 spawn s hc thread ha hm ih =>
    have hinc := u32_inc_of_lt_cpus hc.2
    rw [growLoop_turn core_count spawn s hc ha hm, hinc]
    have ha' : (spawn 0).ac_check = true := by simpa using ha
    have hm' : (spawn 0).musl_res = thrd_success := by simpa using hm
    obtain ⟨j, hport, ht, hpool, hok, hj, hres⟩ := ih
    rw [hinc] at hport ht hpool hj hres
    simp only at hport ht hpool hok hj hres
    have hadd : s.active_thread_count_ + 1 + j = s.active_thread_count_ + (j + 1) := by omega
    rw [hadd] at ht hj hres
    refine ⟨j + 1, hport, ht, ?_, ?_, Or.inr ?_, ?_⟩
    · show _ = spawned s.active_thread_count_ (j + 1) ++ s.thread_pool_
      rw [hpool, spawned_succ, List.append_assoc]; rfl
    · intro i hi
      cases i with
      | zero => exact ⟨ha', hm'⟩
      | succ i => exact hok i (by omega)
    · have h1 := hc.1
      have h2 := hc.2
      show s.active_thread_count_ + (j + 1) ≤ s.active_client_count_ ∧
        s.active_thread_count_ + (j + 1) ≤ mx_system_get_num_cpus core_count
      rcases hj with hj | hj
      · subst hj; omega
      · exact hj
    · show (_ ∧ _ ∧ _ = spawnTrace s.active_thread_count_ (j + 1) ∧ _) ∨
        (_ ∧ _ ∧ _ ∧ ((_ ∧ (spawn (j + 1)).ac_check = false ∧
            _ = spawnTrace s.active_thread_count_ (j + 1) ++ _) ∨
          (_ ∧ (spawn (j + 1)).ac_check = true ∧ (spawn (j + 1)).musl_res ≠ thrd_success ∧
            _ = spawnTrace s.active_thread_count_ (j + 1) ++ _)))
      rw [spawnTrace_succ, hm']
      rcases hres with ⟨hr, hcc, htr, hstop⟩ | ⟨h1, h2, hcc, hr⟩
      · exact Or.inl ⟨hr, hcc, by rw [htr], hstop⟩
      · refine Or.inr ⟨h1, h2, hcc, ?_⟩
        rcases hr with ⟨hr, hac, htr⟩ | ⟨hr, hac, hmr, htr⟩
        · exact Or.inl ⟨hr, hac, by rw [htr]; rfl⟩
        · exact Or.inr ⟨hr, hac, hmr, by rw [htr]; rfl⟩
  | case4 spawn s hc =>
    rw [growLoop_stop core_count spawn s hc]
    refine ⟨0, rfl, rfl, ?_, ?_, Or.inl rfl, Or.inl ⟨rfl, rfl, ?_, hc⟩⟩
    · rw [spawned_zero]; rfl
    · intro i hi; exact absurd hi (Nat.not_lt_zero i)
    · rw [spawnTrace_zero]

/-! ## `AddClientLocked` in terms of its loop -/

theorem AddClientLocked_port_fail (core_count : Nat) (env : AddEnv) (s : PoolState)
    (hp : s.port_.is_valid = false) (he : env.port_create ≠ NO_ERROR) :
    AddClientLocked core_count env s =
      { res := env.port_create, state := s, trace := [Effect.port_create env.port_create] } := by
  simp [AddClientLocked, hp, he]

theorem AddClientLocked_grow (core_count : Nat) (env : AddEnv) (s : PoolState)
    (h : s.port_.is_valid = true ∨ env.port_create = NO_ERROR) :
    (AddClientLocked core_count env s).res = (growLoop core_count env.spawn (growEntry s)).res ∧
    (AddClientLocked core_count env s).state =
      (growLoop core_count env.spawn (growEntry s)).state ∧
    (AddClientLocked core_count env s).trace =
      (if s.port_.is_valid = true then [] else [Effect.port_create env.port_create]) ++
        (growLoop core_count env.spawn (growEntry s)).trace := by
  cases hv : s.port_.is_valid with
  | true =>
    have hs : growEntry s = { s with active_client_count_ := u32_inc s.active_client_count_ } := by
      cases s with
      | mk port c t l =>
        cases port with
        | mk v => simp only [growEntry]; simp at hv; subst hv; rfl
    simp [AddClientLocked, hv, hs]
  | false =>
    have he : env.port_create = NO_ERROR := by
      rcases h with h | h
      · rw [hv] at h; exact absurd h (by decide)
      · exact h
    simp [AddClientLocked, hv, he, growEntry]

/-- Either the port cannot be created, or the call is its growth loop. -/
theorem AddClientLocked_cases (env : AddEnv) (s : PoolState) :
    (s.port_.is_valid = false ∧ env.port_create ≠ NO_ERROR) ∨
    (s.port_.is_valid = true ∨ env.port_create = NO_ERROR) := by
  cases hv : s.port_.is_valid with
  | true => exact Or.inr (Or.inl rfl)
  | false =>
    by_cases he : env.port_create = NO_ERROR
    · exact Or.inr (Or.inr he)
    · exact Or.inl ⟨rfl, he⟩

theorem u32_dec_inc {c : Nat} (h : c < UINT32_MOD) : u32_dec (u32_inc c) = c := by
  unfold u32_dec u32_inc UINT32_MOD at *
  split <;> omega

theorem u32_inc_lt (c : Nat) : u32_inc c < UINT32_MOD := by
  simp only [u32_inc, UINT32_MOD]
  omega

theorem u32_inc_le (c : Nat) : u32_inc c ≤ c + 1 := by
  simp only [u32_inc, UINT32_MOD]
  omega

theorem u32_dec_le {c : Nat} (h : 0 < c) (h' : c < UINT32_MOD) : u32_dec c = c - 1 := by
  unfold u32_dec UINT32_MOD at *
  split <;> omega

theorem u32_dec_lt (c : Nat) : u32_dec c < UINT32_MOD := by
  unfold u32_dec UINT32_MOD
  split <;> omega

theorem spawned_append (t j : Nat) : spawned t j ++ spawned 0 t = spawned 0 (t + j) := by
  simp only [spawned, ← List.reverse_append, ← List.map_append]
  congr 2
  have := List.range'_append 0 t j 1
  simpa [Nat.add_comm] using this

theorem spawned_length (t j : Nat) : (spawned t j).length = j := by
  simp [spawned]

/-! ## The invariant -/

theorem PoolInv_initial (core_count : Nat) : PoolInv core_count PoolState.initial := by
  refine ⟨?_, ?_, ?_, ?_, ?_⟩ <;> simp [PoolState.initial, spawned_zero, UINT32_MOD]

/-- In a state that satisfies the invariant, the growth loop of one call makes
at most one turn, and none when it fails. -/
theorem growLoop_of_inv (core_count : Nat) (spawn : Nat → SpawnOutcome) (s : PoolState)
    (h : PoolInv core_count s) :
    PoolInv core_count (growLoop core_count spawn (growEntry s)).state ∧
    (growLoop core_count spawn (growEntry s)).state.port_.is_valid = true ∧
    ((growLoop core_count spawn (growEntry s)).res ≠ NO_ERROR →
      (growLoop core_count spawn (growEntry s)).state = { s with port_ := ⟨true⟩ }) ∧
    ((growLoop core_count spawn (growEntry s)).res = NO_ERROR →
      (growLoop core_count spawn (growEntry s)).state.active_client_count_ =
        u32_inc s.active_client_count_) ∧
    s.active_thread_count_ ≤ (growLoop core_count spawn (growEntry s)).state.active_thread_count_ ∧
    (growLoop core_count spawn (growEntry s)).state.active_thread_count_ ≤
      s.active_thread_count_ + 1 ∧
    ((growLoop core_count spawn (growEntry s)).state.active_thread_count_ =
        s.active_thread_count_ ∨
      (growLoop core_count spawn (growEntry s)).state.active_thread_count_ ≤
        u32_inc s.active_client_count_) := by
  have hspec := growLoop_spec core_count spawn (growEntry s)
  generalize growLoop core_count spawn (growEntry s) = r at hspec ⊢
  obtain ⟨res, ⟨p, c, t, l⟩, tr⟩ := r
  obtain ⟨j, hport, ht, hpool, _, hj, hres⟩ := hspec
  have hle := u32_inc_le s.active_client_count_
  have hlt := u32_inc_lt s.active_client_count_
  have hdm := h.demand_met
  have htl := h.thread_le
  simp only [growEntry] at hport ht hpool hj hres
  rw [h.pool_eq, spawned_append] at hpool
  subst hport ht hpool
  simp only
  rcases hres with ⟨hr, hc, -, hstop⟩ | ⟨h1, h2, hc, hr⟩
  · subst hc
    refine ⟨⟨rfl, hlt, ?_, ?_, ?_⟩, trivial, fun hne => absurd hr hne, fun _ => rfl, ?_, ?_, ?_⟩
    · show s.active_thread_count_ + j ≤ _
      omega
    · show u32_inc s.active_client_count_ ≤ s.active_thread_count_ + j ∨
        _ ≤ s.active_thread_count_ + j
      omega
    · intro hv; simp at hv
    · omega
    · omega
    · omega
  · have hj0 : j = 0 := by omega
    subst hj0
    rw [u32_dec_inc h.client_lt] at hc
    subst hc
    refine ⟨⟨rfl, h.client_lt, htl, hdm, ?_⟩, trivial, ?_, ?_, ?_, ?_, ?_⟩
    · intro hv; simp at hv
    · intro _
      simp only [Nat.add_zero, ← h.pool_eq]
    · intro hne
      rcases hr with ⟨hr, -⟩ | ⟨hr, -⟩ <;> rw [hr] at hne <;> exact absurd hne (by decide)
    · omega
    · omega
    · omega

theorem AddClientLocked_inv (core_count : Nat) (env : AddEnv) (s : PoolState)
    (h : PoolInv core_count s) : PoolInv core_count (AddClientLocked core_count env s).state := by
  rcases AddClientLocked_cases env s with ⟨hp, he⟩ | hg
  · rw [AddClientLocked_port_fail core_count env s hp he]; exact h
  · rw [(AddClientLocked_grow core_count env s hg).2.1]
    exact (growLoop_of_inv core_count env.spawn s h).1

/-- When every allocation and every thread creation succeeds, so does the loop. -/
theorem growLoop_success (core_count : Nat) (spawn : Nat → SpawnOutcome) (s : PoolState)
    (hok : ∀ i, (spawn i).ac_check = true ∧ (spawn i).musl_res = thrd_success) :
    (growLoop core_count spawn s).res = NO_ERROR := by
  obtain ⟨j, -, -, -, -, -, hres⟩ := growLoop_spec core_count spawn s
  rcases hres with ⟨hr, -⟩ | ⟨-, -, -, ⟨-, ha, -⟩ | ⟨-, -, hm, -⟩⟩
  · exact hr
  · rw [(hok j).1] at ha; exact absurd ha (by decide)
  · exact absurd (hok j).2 hm

/-! ## `ShutdownPoolLocked` and `remove_client` -/

theorem joinLoop_eq (l : List ClientThread) : joinLoop l = ([], l.map Effect.thrd_join) := by
  induction l with
  | nil => rfl
  | cons a l ih => simp [joinLoop, ih]

/-- With clients left, `ShutdownPoolLocked` does nothing. -/
theorem ShutdownPoolLocked_busy (s : PoolState) (h : 0 < s.active_client_count_) :
    ShutdownPoolLocked s = (s, []) := by
  simp [ShutdownPoolLocked, h]

/-- Without clients and without a port, `ShutdownPoolLocked` only evaluates its assertion. -/
theorem ShutdownPoolLocked_closed (s : PoolState) (h : s.active_client_count_ = 0)
    (hp : s.port_.is_valid = false) :
    ShutdownPoolLocked s = (s, [Effect.debug_assert s.thread_pool_.isEmpty]) := by
  simp [ShutdownPoolLocked, h, hp]

/-- Without clients and with a port, `ShutdownPoolLocked` closes the port and
joins the workers. -/
theorem ShutdownPoolLocked_drain (s : PoolState) (h : s.active_client_count_ = 0)
    (hp : s.port_.is_valid = true) :
    ShutdownPoolLocked s =
      ({ port_ := ⟨false⟩, active_client_count_ := 0, active_thread_count_ := 0,
         thread_pool_ := [] },
       Effect.port_reset :: s.thread_pool_.map Effect.thrd_join) := by
  simp [ShutdownPoolLocked, h, hp, joinLoop_eq, mx_port.reset]

theorem ShutdownPoolLocked_inv (core_count : Nat) (s : PoolState) (h : PoolInv core_count s) :
    PoolInv core_count (ShutdownPoolLocked s).1 := by
  by_cases hc : 0 < s.active_client_count_
  · rw [ShutdownPoolLocked_busy s hc]; exact h
  · have hc0 : s.active_client_count_ = 0 := by omega
    cases hp : s.port_.is_valid with
    | false => rw [ShutdownPoolLocked_closed s hc0 hp]; exact h
    | true =>
      rw [ShutdownPoolLocked_drain s hc0 hp]
      refine ⟨?_, ?_, ?_, ?_, ?_⟩ <;> simp [spawned_zero, UINT32_MOD]

theorem remove_client_inv (core_count : Nat) (s : PoolState) (h : PoolInv core_count s) :
    PoolInv core_count (remove_client s).1 := by
  apply ShutdownPoolLocked_inv
  have hlt := h.client_lt
  have hdm := h.demand_met
  refine ⟨h.pool_eq, ?_, h.thread_le, ?_, ?_⟩
  · simp only
    split
    · exact u32_dec_lt _
    · exact hlt
  · simp only
    split
    · rename_i hpos
      rw [u32_dec_le hpos hlt]; omega
    · exact hdm
  · intro hv
    have := h.closed_idle hv
    simp [this.1, this.2]

theorem step_inv (core_count : Nat) (s : PoolState) (c : Call) (h : PoolInv core_count s) :
    PoolInv core_count (step core_count s c) := by
  cases c with
  | add_client env => exact AddClientLocked_inv core_count env s h
  | remove_client => exact remove_client_inv core_count s h

theorem run_inv (core_count : Nat) (calls : List Call) (s : PoolState)
    (h : PoolInv core_count s) : PoolInv core_count (run core_count s calls) := by
  induction calls generalizing s with
  | nil => exact h
  | cons c calls ih => exact ih (step core_count s c) (step_inv core_count s c h)

theorem Reachable_inv {core_count : Nat} {s : PoolState} (h : Reachable core_count s) :
    PoolInv core_count s := by
  obtain ⟨calls, rfl⟩ := h
  exact run_inv core_count calls PoolState.initial (PoolInv_initial core_count)

theorem run_append (core_count : Nat) (s : PoolState) (xs ys : List Call) :
    run core_count s (xs ++ ys) = run core_count (run core_count s xs) ys := by
  simp [run, List.foldl_append]

theorem mx_system_get_num_cpus_of_lt {core_count : Nat} (h : core_count < UINT32_MOD) :
    mx_system_get_num_cpus core_count = core_count := by
  simp only [mx_system_get_num_cpus]
  exact Nat.mod_eq_of_lt h

/-- A trace evaluated: two clients on two cores, then one client leaves. -/
theorem run_add_add_remove :
    run 2 PoolState.initial
      [Call.add_client AddEnv.success, Call.add_client AddEnv.success, Call.remove_client] =
      { port_ := ⟨true⟩, active_client_count_ := 1, active_thread_count_ := 2,
        thread_pool_ := [⟨1⟩, ⟨0⟩] } := by
  simp [run, step, AddClientLocked, growLoop, remove_client, ShutdownPoolLocked,
    PoolState.initial, AddEnv.success, u32_inc, u32_dec, UINT32_MOD, mx_system_get_num_cpus,
    NO_ERROR, thrd_success]

theorem add_clients_succ (core_count k : Nat) :
    add_clients core_count (k + 1) =
      (AddClientLocked core_count AddEnv.success (add_clients core_count k)).state := by
  unfold add_clients
  rw [List.replicate_succ', run_append]
  rfl

theorem AddEnv_success_ok (i : Nat) :
    (AddEnv.success.spawn i).ac_check = true ∧ (AddEnv.success.spawn i).musl_res = thrd_success :=
  ⟨rfl, rfl⟩

theorem add_clients_inv (core_count k : Nat) : PoolInv core_count (add_clients core_count k) :=
  run_inv core_count _ PoolState.initial (PoolInv_initial core_count)

/-- The state after `k` successful registrations, counters modulo `2^32`. -/
theorem add_clients_spec (core_count k : Nat) :
    (AddClientLocked core_count AddEnv.success (add_clients core_count k)).res = NO_ERROR ∧
    (add_clients core_count (k + 1)).port_.is_valid = true ∧
    (add_clients core_count k).active_client_count_ = k % UINT32_MOD ∧
    (add_clients core_count k).active_thread_count_ =
      min k (mx_system_get_num_cpus core_count) := by
  have hgrow : ∀ k, (add_clients core_count k).port_.is_valid = true ∨
      AddEnv.success.port_create = NO_ERROR := fun _ => Or.inr rfl
  have hres : ∀ k,
      (AddClientLocked core_count AddEnv.success (add_clients core_count k)).res = NO_ERROR := by
    intro k
    rw [(AddClientLocked_grow core_count _ _ (hgrow k)).1]
    exact growLoop_success core_count _ _ AddEnv_success_ok
  refine ⟨hres k, ?_, ?_⟩
  · rw [add_clients_succ, (AddClientLocked_grow core_count _ _ (hgrow k)).2.1]
    exact (growLoop_of_inv core_count _ _ (add_clients_inv core_count k)).2.1
  · induction k with
    | zero => simp [add_clients, run, PoolState.initial]
    | succ k ih =>
      obtain ⟨hc, ht⟩ := ih
      have hinv := add_clients_inv core_count k
      obtain ⟨hinv1, -, -, hc1, hge, hle, hor⟩ :=
        growLoop_of_inv core_count AddEnv.success.spawn _ hinv
      have hst := (AddClientLocked_grow core_count _ _ (hgrow k)).2.1
      have hr := hres k
      rw [(AddClientLocked_grow core_count _ _ (hgrow k)).1] at hr
      have hc2 := hc1 hr
      rw [← hst, ← add_clients_succ] at hc2 hge hle hor hinv1
      have h1 := hinv1.thread_le
      have h2 := hinv1.demand_met
      have h3 : mx_system_get_num_cpus core_count < UINT32_MOD := by
        simp only [mx_system_get_num_cpus, UINT32_MOD]; omega
      rw [hc2, hc] at h2
      rw [hc] at hor
      rw [hc2, hc]
      simp only [u32_inc, UINT32_MOD] at *
      omega

/-- Scenario A evaluated: five clients on four cores. -/
theorem add_clients_four_five :
    add_clients 4 5 =
      { port_ := ⟨true⟩, active_client_count_ := 5, active_thread_count_ := 4,
        thread_pool_ := [⟨3⟩, ⟨2⟩, ⟨1⟩, ⟨0⟩] } := by
  simp [add_clients, List.replicate, run, step, AddClientLocked, growLoop,
    PoolState.initial, AddEnv.success, u32_inc, UINT32_MOD, mx_system_get_num_cpus,
    NO_ERROR, thrd_success]

/-- An environment in which everything succeeds is `AddEnv.success`. -/
theorem AddEnv_eq_success (env : AddEnv) (hp : env.port_create = NO_ERROR)
    (hs : ∀ i, (env.spawn i).ac_check = true ∧ (env.spawn i).musl_res = thrd_success) :
    env = AddEnv.success := by
  obtain ⟨p, sp⟩ := env
  simp only at hp hs
  subst hp
  have : sp = AddEnv.success.spawn := by
    funext i
    have h := hs i
    cases hsp : sp i with
    | mk a m =>
      rw [hsp] at h
      simp only at h
      rw [h.1, h.2]
      rfl
  rw [this]
  rfl

theorem remove_client_pos (s : PoolState) (hpos : 0 < s.active_client_count_)
    (hlt : s.active_client_count_ < UINT32_MOD) :
    remove_client s =
      ShutdownPoolLocked { s with active_client_count_ := s.active_client_count_ - 1 } := by
  unfold remove_client
  rw [if_pos hpos, u32_dec_le hpos hlt]

/-- From a state with `k + 1` clients and a port, `k + 1` deregistrations
close the port once and then join every worker, in list order. -/
theorem remove_clients_drain (k : Nat) (s : PoolState) (hk : s.active_client_count_ = k + 1)
    (hlt : s.active_client_count_ < UINT32_MOD) (hv : s.port_.is_valid = true) :
    remove_clients (k + 1) s =
      ({ port_ := ⟨false⟩, active_client_count_ := 0, active_thread_count_ := 0,
         thread_pool_ := [] },
       Effect.port_reset :: s.thread_pool_.map Effect.thrd_join) := by
  induction k generalizing s with
  | zero =>
    have hpos : 0 < s.active_client_count_ := by omega
    have h0 : ({ s with active_client_count_ := s.active_client_count_ - 1 } :
        PoolState).active_client_count_ = 0 := by
      show s.active_client_count_ - 1 = 0
      omega
    simp only [remove_clients]
    rw [remove_client_pos s hpos hlt,
      ShutdownPoolLocked_drain { s with active_client_count_ := s.active_client_count_ - 1 } h0 hv]
    simp
  | succ k ih =>
    have hpos : 0 < s.active_client_count_ := by omega
    have h1 : 0 < ({ s with active_client_count_ := s.active_client_count_ - 1 } :
        PoolState).active_client_count_ := by
      show 0 < s.active_client_count_ - 1
      omega
    rw [remove_clients, remove_client_pos s hpos hlt,
      ShutdownPoolLocked_busy { s with active_client_count_ := s.active_client_count_ - 1 } h1]
    simp only [List.nil_append]
    exact ih { s with active_client_count_ := s.active_client_count_ - 1 }
      (by show s.active_client_count_ - 1 = k + 1; omega)
      (by show s.active_client_count_ - 1 < UINT32_MOD; omega) hv

theorem mem_spawnTrace {e : Effect} {t j : Nat} :
    e ∈ spawnTrace t j ↔
      ∃ i, (t ≤ i ∧ i < t + j) ∧
        (e = Effect.new_ClientThread i true ∨ e = Effect.thrd_create ⟨i⟩ thrd_success) := by
  simp [spawnTrace, List.mem_flatMap, List.mem_range'_1]

theorem mem_spawned {w : ClientThread} {t j : Nat} :
    w ∈ spawned t j ↔ t ≤ w.id ∧ w.id < t + j := by
  obtain ⟨i⟩ := w
  simp [spawned, List.mem_range'_1]

/-- What one `AddClientLocked` call does, for every state: it stops at a failed
port creation, or it runs the growth loop from `growEntry s`. -/
theorem AddClientLocked_spec (core_count : Nat) (env : AddEnv) (s : PoolState) :
    (s.port_.is_valid = false ∧ env.port_create ≠ NO_ERROR ∧
      AddClientLocked core_count env s =
        { res := env.port_create, state := s, trace := [Effect.port_create env.port_create] }) ∨
    ∃ gtrace,
      GrowSpec core_count env.spawn (growEntry s)
        { res := (AddClientLocked core_count env s).res
          state := (AddClientLocked core_count env s).state
          trace := gtrace } ∧
      ((AddClientLocked core_count env s).trace = gtrace ∨
        (AddClientLocked core_count env s).trace =
          Effect.port_create env.port_create :: gtrace) := by
  rcases AddClientLocked_cases env s with ⟨hp, he⟩ | hg
  · exact Or.inl ⟨hp, he, AddClientLocked_port_fail core_count env s hp he⟩
  · obtain ⟨h1, h2, h3⟩ := AddClientLocked_grow core_count env s hg
    refine Or.inr ⟨(growLoop core_count env.spawn (growEntry s)).trace, ?_, ?_⟩
    · rw [h1, h2]
      exact growLoop_spec core_count env.spawn (growEntry s)
    · rw [h3]
      split
      · exact Or.inl rfl
      · exact Or.inr rfl

/-- Scenario C evaluated: with two clients and two workers on four cores, the
allocation of the third worker fails. -/
theorem AddClientLocked_two_clients_allocFails :
    AddClientLocked 4 AddEnv.allocFails PoolState.two_clients =
      { res := ERR_NO_MEMORY, state := PoolState.two_clients,
        trace := [Effect.new_ClientThread 2 false] } := by
  simp [AddClientLocked, growLoop, PoolState.two_clients, AddEnv.allocFails, u32_inc, u32_dec,
    UINT32_MOD, mx_system_get_num_cpus]

/-- The first registration evaluated, when the port can be created and the
allocation of the first worker fails. -/
theorem AddClientLocked_initial_allocFails :
    AddClientLocked 4 AddEnv.allocFails PoolState.initial =
      { res := ERR_NO_MEMORY
        state := { port_ := ⟨true⟩, active_client_count_ := 0, active_thread_count_ := 0,
                   thread_pool_ := [] }
        trace := [Effect.port_create NO_ERROR, Effect.new_ClientThread 0 false] } := by
  simp [AddClientLocked, growLoop, PoolState.initial, AddEnv.allocFails, u32_inc, u32_dec,
    UINT32_MOD, mx_system_get_num_cpus, NO_ERROR]

theorem two_clients_reachable : Reachable 4 PoolState.two_clients := by
  refine ⟨[Call.add_client AddEnv.success, Call.add_client AddEnv.success], ?_⟩
  simp [run, step, AddClientLocked, growLoop, PoolState.initial, PoolState.two_clients,
    AddEnv.success, u32_inc, UINT32_MOD, mx_system_get_num_cpus, NO_ERROR, thrd_success]

/-- For every state, `AddClientLocked` keeps the workers it found and never
lowers the thread count. -/
theorem AddClientLocked_grows (core_count : Nat) (env : AddEnv) (s : PoolState) :
    s.active_thread_count_ ≤ (AddClientLocked core_count env s).state.active_thread_count_ ∧
    s.thread_pool_ <:+ (AddClientLocked core_count env s).state.thread_pool_ := by
  rcases AddClientLocked_spec core_count env s with ⟨-, -, heq⟩ | ⟨g, ⟨j, -, ht, hpool, -⟩, -⟩
  · rw [heq]
    exact ⟨le_refl _, List.suffix_refl _⟩
  · simp only [growEntry] at ht hpool
    rw [ht, hpool]
    exact ⟨Nat.le_add_right _ _, List.suffix_append _ _⟩

theorem ShutdownPoolLocked_cases (s : PoolState) :
    (0 < s.active_client_count_ ∧ ShutdownPoolLocked s = (s, [])) ∨
    (s.active_client_count_ = 0 ∧ s.port_.is_valid = false ∧
      ShutdownPoolLocked s = (s, [Effect.debug_assert s.thread_pool_.isEmpty])) ∨
    (s.active_client_count_ = 0 ∧ s.port_.is_valid = true ∧
      ShutdownPoolLocked s =
        ({ port_ := ⟨false⟩, active_client_count_ := 0, active_thread_count_ := 0,
           thread_pool_ := [] },
         Effect.port_reset :: s.thread_pool_.map Effect.thrd_join)) := by
  by_cases hc : 0 < s.active_client_count_
  · exact Or.inl ⟨hc, ShutdownPoolLocked_busy s hc⟩
  · have hc0 : s.active_client_count_ = 0 := by omega
    cases hp : s.port_.is_valid with
    | false => exact Or.inr (Or.inl ⟨hc0, rfl, ShutdownPoolLocked_closed s hc0 hp⟩)
    | true => exact Or.inr (Or.inr ⟨hc0, rfl, ShutdownPoolLocked_drain s hc0 hp⟩)

theorem joined_map_thrd_join (l : List ClientThread) : joined (l.map Effect.thrd_join) = l := by
  induction l with
  | nil => rfl
  | cons a l ih => simp [joined] at ih ⊢; exact ih

theorem count_port_reset_map (l : List ClientThread) :
    (l.map Effect.thrd_join).count Effect.port_reset = 0 := by
  induction l with
  | nil => rfl
  | cons a l ih => simp [List.count_cons, ih]

/-! ## The claims -/

/-- C1 (as stated, refuted): on two cores, after two registrations and one
deregistration one client is left while two threads run, which is not
`min 1 2`: a deregistration that leaves clients behind does not shrink the pool. -/
theorem C1_counterexample :
    0 < (run 2 PoolState.initial
      [Call.add_client AddEnv.success, Call.add_client AddEnv.success,
        Call.remove_client]).active_client_count_ ∧
    (run 2 PoolState.initial
      [Call.add_client AddEnv.success, Call.add_client AddEnv.success,
        Call.remove_client]).active_thread_count_ ≠
      min (run 2 PoolState.initial
        [Call.add_client AddEnv.success, Call.add_client AddEnv.success,
          Call.remove_client]).active_client_count_ 2 := by
  rw [run_add_add_remove]
  decide

/-- C1 (amended): after every finite sequence of `AddClientLocked` /
`remove_client` calls from the initial state, whatever the outcomes of port
creation, allocation and thread creation, the thread count lies between
`min(active_client_count, core_count)` and `core_count`. -/
theorem C1_thread_count_bounds (core_count : Nat) (calls : List Call)
    (hcores : core_count < UINT32_MOD) :
    min (run core_count PoolState.initial calls).active_client_count_ core_count ≤
      (run core_count PoolState.initial calls).active_thread_count_ ∧
    (run core_count PoolState.initial calls).active_thread_count_ ≤ core_count := by
  have hinv := run_inv core_count calls PoolState.initial (PoolInv_initial core_count)
  have h1 := hinv.thread_le
  have h2 := hinv.demand_met
  rw [mx_system_get_num_cpus_of_lt hcores] at h1 h2
  refine ⟨?_, h1⟩
  rcases h2 with h2 | h2
  · exact le_trans (min_le_left _ _) h2
  · exact le_trans (min_le_right _ _) h2

/-- C1 (amended), at the trace of the counterexample: one client, two cores, two threads. -/
theorem C1_thread_count_bounds_witness :
    2 < UINT32_MOD ∧
    min (run 2 PoolState.initial
      [Call.add_client AddEnv.success, Call.add_client AddEnv.success,
        Call.remove_client]).active_client_count_ 2 ≤
      (run 2 PoolState.initial
        [Call.add_client AddEnv.success, Call.add_client AddEnv.success,
          Call.remove_client]).active_thread_count_ ∧
    (run 2 PoolState.initial
      [Call.add_client AddEnv.success, Call.add_client AddEnv.success,
        Call.remove_client]).active_thread_count_ ≤ 2 :=
  ⟨by decide, C1_thread_count_bounds 2 _ (by decide)⟩

/-- C2 (as stated, refuted): `active_client_count_` is a `uint32_t`; after
`2^32` successful registrations on four cores it has wrapped round to 0 and
is not `2^32`. -/
theorem C2_counterexample :
    (add_clients 4 4294967296).active_client_count_ = 0 ∧
    (add_clients 4 4294967296).active_client_count_ ≠ 4294967296 := by
  rw [(add_clients_spec 4 4294967296).2.2.1]
  decide

/-- C2 (amended): for every core count (a `uint32_t`) and every `n` with
`1 ≤ n < 2^32`, in `n` consecutive `AddClientLocked` calls from the initial
state in which port creation, allocation and thread creation all succeed (the
environment of each call is then `AddEnv.success`, see `AddEnv_eq_success`), the
`k`-th call (`1 ≤ k ≤ n`) returns `NO_ERROR` and leaves the port valid,
`active_client_count_ = k` and
`active_thread_count_ = min k core_count = ` the length of the worker list. -/
theorem C2_add_clients_succeed (core_count n k : Nat) (hcores : core_count < UINT32_MOD)
    (hn : n < UINT32_MOD) (hk : 1 ≤ k) (hkn : k ≤ n) :
    (AddClientLocked core_count AddEnv.success (add_clients core_count (k - 1))).res = NO_ERROR ∧
    (add_clients core_count k).port_.is_valid = true ∧
    (add_clients core_count k).active_client_count_ = k ∧
    (add_clients core_count k).active_thread_count_ = min k core_count ∧
    (add_clients core_count k).active_thread_count_ =
      (add_clients core_count k).thread_pool_.length := by
  obtain ⟨k, rfl⟩ : ∃ m, k = m + 1 := ⟨k - 1, by omega⟩
  have h1 := add_clients_spec core_count k
  have h2 := add_clients_spec core_count (k + 1)
  have hinv := add_clients_inv core_count (k + 1)
  rw [mx_system_get_num_cpus_of_lt hcores] at h2
  refine ⟨h1.1, h1.2.1, ?_, h2.2.2.2, ?_⟩
  · rw [h2.2.2.1]
    exact Nat.mod_eq_of_lt (lt_of_le_of_lt hkn hn)
  · conv_rhs => rw [hinv.pool_eq]
    rw [spawned_length]

/-- C2 (amended), Scenario A: on four cores the fifth successful registration
returns `NO_ERROR` and leaves five clients and four threads. -/
theorem C2_add_clients_succeed_witness :
    (AddClientLocked 4 AddEnv.success (add_clients 4 (5 - 1))).res = NO_ERROR ∧
    (add_clients 4 5).port_.is_valid = true ∧
    (add_clients 4 5).active_client_count_ = 5 ∧
    (add_clients 4 5).active_thread_count_ = min 5 4 ∧
    (add_clients 4 5).active_thread_count_ = (add_clients 4 5).thread_pool_.length :=
  C2_add_clients_succeed 4 5 5 (by decide) (by decide) (by decide) (by decide)

/-- C3: from any state without clients and with a valid port,
`ShutdownPoolLocked` leaves the port invalid, the worker list empty and the
thread count 0, and what it does is: close the port, once, then join each
worker of the list, once, in list order.  And from any reachable state with
`k > 0` clients, `k` `remove_client` calls end in the same state, having closed
the port once and then joined every worker. -/
theorem C3_shutdown_closes_then_joins (core_count : Nat) (s0 s : PoolState)
    (h0 : s0.active_client_count_ = 0) (hv : s0.port_.is_valid = true)
    (hr : Reachable core_count s) (hk : 0 < s.active_client_count_) :
    ShutdownPoolLocked s0 =
      ({ port_ := ⟨false⟩, active_client_count_ := 0, active_thread_count_ := 0,
         thread_pool_ := [] },
       Effect.port_reset :: s0.thread_pool_.map Effect.thrd_join) ∧
    remove_clients s.active_client_count_ s =
      ({ port_ := ⟨false⟩, active_client_count_ := 0, active_thread_count_ := 0,
         thread_pool_ := [] },
       Effect.port_reset :: s.thread_pool_.map Effect.thrd_join) := by
  refine ⟨ShutdownPoolLocked_drain s0 h0 hv, ?_⟩
  have hinv := Reachable_inv hr
  have hvalid : s.port_.is_valid = true := by
    cases hp : s.port_.is_valid with
    | true => rfl
    | false => have := (hinv.closed_idle hp).1; omega
  obtain ⟨k, hk1⟩ : ∃ m, s.active_client_count_ = m + 1 := ⟨s.active_client_count_ - 1, by omega⟩
  rw [hk1]
  exact remove_clients_drain k s hk1 hinv.client_lt hvalid

/-- C3, Scenario B: an idle pool with a port and two workers is shut down; and
after five registrations on four cores, five deregistrations close the port and
then join the four workers. -/
theorem C3_shutdown_closes_then_joins_witness :
    ShutdownPoolLocked
        { port_ := ⟨true⟩, active_client_count_ := 0, active_thread_count_ := 2,
          thread_pool_ := [⟨1⟩, ⟨0⟩] } =
      ({ port_ := ⟨false⟩, active_client_count_ := 0, active_thread_count_ := 0,
         thread_pool_ := [] },
       [Effect.port_reset, Effect.thrd_join ⟨1⟩, Effect.thrd_join ⟨0⟩]) ∧
    remove_clients 5
        { port_ := ⟨true⟩, active_client_count_ := 5, active_thread_count_ := 4,
          thread_pool_ := [⟨3⟩, ⟨2⟩, ⟨1⟩, ⟨0⟩] } =
      ({ port_ := ⟨false⟩, active_client_count_ := 0, active_thread_count_ := 0,
         thread_pool_ := [] },
       [Effect.port_reset, Effect.thrd_join ⟨3⟩, Effect.thrd_join ⟨2⟩, Effect.thrd_join ⟨1⟩,
        Effect.thrd_join ⟨0⟩]) :=
  C3_shutdown_closes_then_joins 4
    { port_ := ⟨true⟩, active_client_count_ := 0, active_thread_count_ := 2,
      thread_pool_ := [⟨1⟩, ⟨0⟩] }
    { port_ := ⟨true⟩, active_client_count_ := 5, active_thread_count_ := 4,
      thread_pool_ := [⟨3⟩, ⟨2⟩, ⟨1⟩, ⟨0⟩] }
    rfl rfl ⟨List.replicate 5 (Call.add_client AddEnv.success), add_clients_four_five⟩
    (by decide)

/-- C4: when the port is invalid and port creation fails with a status other
than `NO_ERROR`, `AddClientLocked` returns that status, leaves the whole pool
state as it was, and does nothing but the failed port creation: no worker is
allocated and no thread is created. -/
theorem C4_port_create_failure (core_count : Nat) (env : AddEnv) (s : PoolState)
    (hp : s.port_.is_valid = false) (he : env.port_create ≠ NO_ERROR) :
    (AddClientLocked core_count env s).res = env.port_create ∧
    (AddClientLocked core_count env s).state = s ∧
    (AddClientLocked core_count env s).trace = [Effect.port_create env.port_create] ∧
    (∀ id ok, Effect.new_ClientThread id ok ∉ (AddClientLocked core_count env s).trace) ∧
    (∀ thread musl_res,
      Effect.thrd_create thread musl_res ∉ (AddClientLocked core_count env s).trace) := by
  rw [AddClientLocked_port_fail core_count env s hp he]
  refine ⟨rfl, rfl, rfl, ?_, ?_⟩
  · intro id ok h; simp at h
  · intro thread musl_res h; simp at h

/-- C4, at the first registration on four cores when the kernel is out of memory. -/
theorem C4_port_create_failure_witness :
    (AddClientLocked 4 { port_create := ERR_NO_MEMORY, spawn := AddEnv.success.spawn }
        PoolState.initial).res = ERR_NO_MEMORY ∧
    (AddClientLocked 4 { port_create := ERR_NO_MEMORY, spawn := AddEnv.success.spawn }
        PoolState.initial).state = PoolState.initial ∧
    (AddClientLocked 4 { port_create := ERR_NO_MEMORY, spawn := AddEnv.success.spawn }
        PoolState.initial).trace = [Effect.port_create ERR_NO_MEMORY] :=
  have h := C4_port_create_failure 4
    { port_create := ERR_NO_MEMORY, spawn := AddEnv.success.spawn } PoolState.initial rfl
    (by decide)
  ⟨h.1, h.2.1, h.2.2.1⟩

/-- C5: for every pool state (reachable or not, its client count a `uint32_t`
value) and every `AddClientLocked` call whose growth loop fails for worker `id`
(its allocation fails, or the creation of its thread fails): an allocation failure returns `ERR_NO_MEMORY`, a thread creation
failure returns `ERR_INTERNAL`; in both cases `active_client_count_` is back at
its value before the call; the list is the list before the call with the
workers of the successful earlier turns pushed in front, the failed worker not
among them; no worker is joined and the port is not closed; and
`active_thread_count_` still equals the length of the list if it did before. -/
theorem C5_growth_failure (core_count : Nat) (env : AddEnv) (s : PoolState) (id : Nat)
    (hc : s.active_client_count_ < UINT32_MOD)
    (hfail : Effect.new_ClientThread id false ∈ (AddClientLocked core_count env s).trace ∨
      ∃ m, m ≠ thrd_success ∧
        Effect.thrd_create ⟨id⟩ m ∈ (AddClientLocked core_count env s).trace) :
    (Effect.new_ClientThread id false ∈ (AddClientLocked core_count env s).trace →
      (AddClientLocked core_count env s).res = ERR_NO_MEMORY) ∧
    ((∃ m, m ≠ thrd_success ∧
        Effect.thrd_create ⟨id⟩ m ∈ (AddClientLocked core_count env s).trace) →
      (AddClientLocked core_count env s).res = ERR_INTERNAL) ∧
    (AddClientLocked core_count env s).state.active_client_count_ = s.active_client_count_ ∧
    (∃ j, id = s.active_thread_count_ + j ∧
      (AddClientLocked core_count env s).state.active_thread_count_ =
        s.active_thread_count_ + j ∧
      (AddClientLocked core_count env s).state.thread_pool_ =
        spawned s.active_thread_count_ j ++ s.thread_pool_ ∧
      (⟨id⟩ : ClientThread) ∉ spawned s.active_thread_count_ j) ∧
    ((∀ w ∈ s.thread_pool_, w.id < s.active_thread_count_) →
      (⟨id⟩ : ClientThread) ∉ (AddClientLocked core_count env s).state.thread_pool_) ∧
    s.thread_pool_ <:+ (AddClientLocked core_count env s).state.thread_pool_ ∧
    (∀ thread, Effect.thrd_join thread ∉ (AddClientLocked core_count env s).trace) ∧
    Effect.port_reset ∉ (AddClientLocked core_count env s).trace ∧
    (s.active_thread_count_ = s.thread_pool_.length →
      (AddClientLocked core_count env s).state.active_thread_count_ =
        (AddClientLocked core_count env s).state.thread_pool_.length) := by
  rcases AddClientLocked_spec core_count env s with ⟨-, -, heq⟩ | ⟨g, hspec, htr⟩
  · rw [heq] at hfail
    simp at hfail
  · generalize AddClientLocked core_count env s = r at hspec htr hfail ⊢
    obtain ⟨res, ⟨p, c, t, l⟩, tr⟩ := r
    obtain ⟨j, -, ht, hpool, -, -, hcase⟩ := hspec
    simp only [growEntry] at ht hpool hcase hfail htr ⊢
    subst ht hpool
    have hnew : ∀ i b, Effect.new_ClientThread i b ∈ tr ↔ Effect.new_ClientThread i b ∈ g := by
      intro i b; rcases htr with h | h <;> simp [h]
    have hthrd : ∀ w m, Effect.thrd_create w m ∈ tr ↔ Effect.thrd_create w m ∈ g := by
      intro w m; rcases htr with h | h <;> simp [h]
    have hjoin : ∀ w, Effect.thrd_join w ∈ tr ↔ Effect.thrd_join w ∈ g := by
      intro w; rcases htr with h | h <;> simp [h]
    have hreset : Effect.port_reset ∈ tr ↔ Effect.port_reset ∈ g := by
      rcases htr with h | h <;> simp [h]
    simp only [hnew, hthrd, hjoin, hreset] at hfail ⊢
    rcases hcase with ⟨-, -, hg, -⟩ | ⟨-, -, hcc, ⟨hres, -, hg⟩ | ⟨hres, -, hm, hg⟩⟩
    · subst hg
      simp [mem_spawnTrace] at hfail
      obtain ⟨m, hm, i, -, hi⟩ := hfail
      exact absurd hi.2 hm
    · subst hg
      rw [u32_dec_inc hc] at hcc
      have hid : id = s.active_thread_count_ + j := by
        rcases hfail with h | ⟨m, hm', h⟩
        · simpa [mem_spawnTrace] using h
        · simp [mem_spawnTrace] at h
          obtain ⟨i, -, -, h⟩ := h
          exact absurd h hm'
      subst hid
      refine ⟨fun _ => hres, ?_, hcc, ⟨j, rfl, rfl, rfl, ?_⟩, ?_, List.suffix_append _ _, ?_, ?_, ?_⟩
      · rintro ⟨m, hm, h⟩
        simp [mem_spawnTrace] at h
        obtain ⟨i, -, -, h⟩ := h
        exact absurd h hm
      · simp [mem_spawned]
      · intro hlt h
        rcases List.mem_append.1 h with h | h
        · simp [mem_spawned] at h
        · have := hlt _ h
          simp at this
      · intro w h; simp [mem_spawnTrace] at h
      · simp [mem_spawnTrace]
      · intro h; simp [spawned_length, h, Nat.add_comm]
    · subst hg
      rw [u32_dec_inc hc] at hcc
      have hid : id = s.active_thread_count_ + j := by
        rcases hfail with h | ⟨m, hm', h⟩
        · simp [mem_spawnTrace] at h
        · simp [mem_spawnTrace] at h
          rcases h with ⟨i, -, -, h⟩ | h
          · exact absurd h hm'
          · exact h.1
      subst hid
      refine ⟨?_, fun _ => hres, hcc, ⟨j, rfl, rfl, rfl, ?_⟩, ?_, List.suffix_append _ _,
        ?_, ?_, ?_⟩
      · intro h
        simp [mem_spawnTrace] at h
      · simp [mem_spawned]
      · intro hlt h
        rcases List.mem_append.1 h with h | h
        · simp [mem_spawned] at h
        · have := hlt _ h
          simp at this
      · intro w h; simp [mem_spawnTrace] at h
      · simp [mem_spawnTrace]
      · intro h; simp [spawned_length, h, Nat.add_comm]

/-- C5, Scenario C: with two clients and two workers on four cores, the
allocation of the third worker fails: two clients are counted after the call
and the two workers are still in the list. -/
theorem C5_growth_failure_witness :
    (AddClientLocked 4 AddEnv.allocFails PoolState.two_clients).res = ERR_NO_MEMORY ∧
    (AddClientLocked 4 AddEnv.allocFails PoolState.two_clients).state.active_client_count_ =
      PoolState.two_clients.active_client_count_ ∧
    PoolState.two_clients.thread_pool_ <:+
      (AddClientLocked 4 AddEnv.allocFails PoolState.two_clients).state.thread_pool_ :=
  have hmem : Effect.new_ClientThread 2 false ∈
      (AddClientLocked 4 AddEnv.allocFails PoolState.two_clients).trace := by
    rw [AddClientLocked_two_clients_allocFails]
    exact List.mem_singleton.2 rfl
  have h := C5_growth_failure 4 AddEnv.allocFails PoolState.two_clients 2 (by decide)
    (Or.inl hmem)
  ⟨h.1 hmem, h.2.2.1, h.2.2.2.2.2.1⟩

/-- C6 (as stated, refuted): in the initial state, on four cores, port creation
succeeds and the allocation of the first worker fails: the call returns
`ERR_NO_MEMORY` and leaves the port valid, which it was not before. -/
theorem C6_counterexample :
    Reachable 4 PoolState.initial ∧
    (AddClientLocked 4 AddEnv.allocFails PoolState.initial).res ≠ NO_ERROR ∧
    (AddClientLocked 4 AddEnv.allocFails PoolState.initial).state ≠ PoolState.initial := by
  rw [AddClientLocked_initial_allocFails]
  exact ⟨⟨[], rfl⟩, by decide, by decide⟩

/-- C6 (amended): in every reachable state, an `AddClientLocked` call that
fails leaves `active_client_count_`, `active_thread_count_` and the worker
list as they were; the port is as it was too, unless the call itself created
it (port invalid before, creation succeeded), and then it stays valid. -/
theorem C6_failed_add_keeps_counts (core_count : Nat) (env : AddEnv) (s : PoolState)
    (hr : Reachable core_count s)
    (hfail : (AddClientLocked core_count env s).res ≠ NO_ERROR) :
    (AddClientLocked core_count env s).state.active_client_count_ = s.active_client_count_ ∧
    (AddClientLocked core_count env s).state.active_thread_count_ = s.active_thread_count_ ∧
    (AddClientLocked core_count env s).state.thread_pool_ = s.thread_pool_ ∧
    ((s.port_.is_valid = true ∨ env.port_create ≠ NO_ERROR) →
      (AddClientLocked core_count env s).state.port_ = s.port_) ∧
    ((s.port_.is_valid = false ∧ env.port_create = NO_ERROR) →
      (AddClientLocked core_count env s).state.port_.is_valid = true) := by
  have hinv := Reachable_inv hr
  rcases AddClientLocked_cases env s with ⟨hp, he⟩ | hg
  · rw [AddClientLocked_port_fail core_count env s hp he]
    refine ⟨rfl, rfl, rfl, fun _ => rfl, ?_⟩
    rintro ⟨-, h⟩
    exact absurd h he
  · obtain ⟨h1, h2, -⟩ := AddClientLocked_grow core_count env s hg
    rw [h1] at hfail
    have hst := (growLoop_of_inv core_count env.spawn s hinv).2.2.1 hfail
    rw [h2, hst]
    refine ⟨rfl, rfl, rfl, ?_, fun _ => rfl⟩
    rintro (h | h)
    · obtain ⟨⟨v⟩, c, t, l⟩ := s
      simp only at h
      subst h
      rfl
    · rcases hg with hg | hg
      · obtain ⟨⟨v⟩, c, t, l⟩ := s
        simp only at hg
        subst hg
        rfl
      · exact absurd hg h

/-- C6 (amended), Scenario C: the failed third allocation leaves two clients,
two threads and the two workers. -/
theorem C6_failed_add_keeps_counts_witness :
    (AddClientLocked 4 AddEnv.allocFails PoolState.two_clients).state.active_client_count_ =
      PoolState.two_clients.active_client_count_ ∧
    (AddClientLocked 4 AddEnv.allocFails PoolState.two_clients).state.active_thread_count_ =
      PoolState.two_clients.active_thread_count_ ∧
    (AddClientLocked 4 AddEnv.allocFails PoolState.two_clients).state.thread_pool_ =
      PoolState.two_clients.thread_pool_ :=
  have hfail : (AddClientLocked 4 AddEnv.allocFails PoolState.two_clients).res ≠ NO_ERROR := by
    rw [AddClientLocked_two_clients_allocFails]
    decide
  have h := C6_failed_add_keeps_counts 4 AddEnv.allocFails PoolState.two_clients
    two_clients_reachable hfail
  ⟨h.1, h.2.1, h.2.2.1⟩

/-- C7: running `ShutdownPoolLocked` twice in a row gives the state of running
it once; the second run neither closes the port nor joins a thread; over both
runs the port is closed at most once, and the workers joined are workers of the
list, each at most once. -/
theorem C7_shutdown_twice (s : PoolState) :
    (ShutdownPoolLocked (ShutdownPoolLocked s).1).1 = (ShutdownPoolLocked s).1 ∧
    Effect.port_reset ∉ (ShutdownPoolLocked (ShutdownPoolLocked s).1).2 ∧
    joined (ShutdownPoolLocked (ShutdownPoolLocked s).1).2 = [] ∧
    ((ShutdownPoolLocked s).2 ++ (ShutdownPoolLocked (ShutdownPoolLocked s).1).2).count
      Effect.port_reset ≤ 1 ∧
    (joined ((ShutdownPoolLocked s).2 ++
      (ShutdownPoolLocked (ShutdownPoolLocked s).1).2)).Sublist s.thread_pool_ := by
  rcases ShutdownPoolLocked_cases s with ⟨hc, h⟩ | ⟨hc, hp, h⟩ | ⟨-, -, h⟩
  · rw [h]
    simp only
    rw [h]
    simp [joined]
  · rw [h]
    simp only
    rw [h]
    simp [joined]
  · rw [h]
    simp only
    rw [ShutdownPoolLocked_closed _ rfl rfl]
    refine ⟨rfl, by simp, by simp [joined], ?_, ?_⟩
    · simp [List.count_cons, count_port_reset_map]
    · have hj := joined_map_thrd_join s.thread_pool_
      simp only [joined, List.filterMap_append, List.filterMap_cons, List.filterMap_nil,
        List.append_nil] at hj ⊢
      rw [hj]

/-- C8: after every finite sequence of `AddClientLocked` / `remove_client`
calls from the initial state, whatever the outcomes of port creation,
allocation and thread creation, `active_thread_count_` is the length of the
worker list. -/
theorem C8_thread_count_is_list_length (core_count : Nat) (calls : List Call) :
    (run core_count PoolState.initial calls).active_thread_count_ =
      (run core_count PoolState.initial calls).thread_pool_.length := by
  have hinv := run_inv core_count calls PoolState.initial (PoolInv_initial core_count)
  conv_rhs => rw [hinv.pool_eq]
  rw [spawned_length]

/-- C9 (as stated, refuted): after a first registration in which the port is
created and the allocation of the first worker fails, the worker list is empty
and the port is valid. -/
theorem C9_counterexample :
    (run 4 PoolState.initial [Call.add_client AddEnv.allocFails]).thread_pool_ = [] ∧
    (run 4 PoolState.initial [Call.add_client AddEnv.allocFails]).port_.is_valid = true := by
  have h : run 4 PoolState.initial [Call.add_client AddEnv.allocFails] =
      (AddClientLocked 4 AddEnv.allocFails PoolState.initial).state := rfl
  rw [h, AddClientLocked_initial_allocFails]
  exact ⟨rfl, rfl⟩

/-- C9 (amended): after every finite sequence of `AddClientLocked` /
`remove_client` calls from the initial state, whatever the outcomes of port
creation, allocation and thread creation, if the port is invalid then the
worker list is empty. -/
theorem C9_no_port_no_workers (core_count : Nat) (calls : List Call)
    (hp : (run core_count PoolState.initial calls).port_.is_valid = false) :
    (run core_count PoolState.initial calls).thread_pool_ = [] := by
  have hinv := run_inv core_count calls PoolState.initial (PoolInv_initial core_count)
  rw [hinv.pool_eq, (hinv.closed_idle hp).2, spawned_zero]

/-- C9 (amended), after a failed port creation: no port, no workers. -/
theorem C9_no_port_no_workers_witness :
    (run 4 PoolState.initial
      [Call.add_client { port_create := ERR_NO_MEMORY, spawn := AddEnv.success.spawn }]
      ).thread_pool_ = [] :=
  C9_no_port_no_workers 4
    [Call.add_client { port_create := ERR_NO_MEMORY, spawn := AddEnv.success.spawn }]
    (by simp [run, step, AddClientLocked, PoolState.initial, ERR_NO_MEMORY, NO_ERROR])

/-- C10: for every pool state and every single `AddClientLocked` or
`remove_client` call that leaves `active_client_count_ > 0`, the thread count
after the call is at least the thread count before it and the list before the
call is a tail of the list after it.  `AddClientLocked` never lowers the
thread count; a `ShutdownPoolLocked` run lowers it only when it starts with
`active_client_count_ = 0`, and then to 0; so does `remove_client`, only
through its `ShutdownPoolLocked` run. -/
theorem C10_pool_never_shrinks_with_clients (core_count : Nat) (s : PoolState) (call : Call)
    (hpos : 0 < (step core_count s call).active_client_count_) :
    (s.active_thread_count_ ≤ (step core_count s call).active_thread_count_ ∧
      s.thread_pool_ <:+ (step core_count s call).thread_pool_) ∧
    (∀ env, s.active_thread_count_ ≤
      (AddClientLocked core_count env s).state.active_thread_count_) ∧
    ((ShutdownPoolLocked s).1.active_thread_count_ < s.active_thread_count_ →
      s.active_client_count_ = 0 ∧ (ShutdownPoolLocked s).1.active_thread_count_ = 0) ∧
    ((remove_client s).1.active_thread_count_ < s.active_thread_count_ →
      (remove_client s).1.active_client_count_ = 0 ∧
        (remove_client s).1.active_thread_count_ = 0) := by
  have hshut : ∀ s' : PoolState,
      (ShutdownPoolLocked s').1.active_thread_count_ < s'.active_thread_count_ →
        s'.active_client_count_ = 0 ∧ (ShutdownPoolLocked s').1.active_client_count_ = 0 ∧
          (ShutdownPoolLocked s').1.active_thread_count_ = 0 := by
    intro s' hlt
    rcases ShutdownPoolLocked_cases s' with ⟨-, h⟩ | ⟨-, -, h⟩ | ⟨hc, -, h⟩
    · rw [h] at hlt; exact absurd hlt (lt_irrefl _)
    · rw [h] at hlt; exact absurd hlt (lt_irrefl _)
    · rw [h]; exact ⟨hc, rfl, rfl⟩
  refine ⟨?_, fun env => (AddClientLocked_grows core_count env s).1,
    fun h => ⟨(hshut s h).1, (hshut s h).2.2⟩, fun h => (hshut _ h).2⟩
  cases call with
  | add_client env => exact AddClientLocked_grows core_count env s
  | remove_client =>
    simp only [step] at hpos ⊢
    unfold remove_client at hpos ⊢
    rcases ShutdownPoolLocked_cases
      { s with active_client_count_ :=
          if s.active_client_count_ > 0 then u32_dec s.active_client_count_
          else s.active_client_count_ } with ⟨-, h⟩ | ⟨-, -, h⟩ | ⟨-, -, h⟩
    · rw [h]; exact ⟨le_refl _, List.suffix_refl _⟩
    · rw [h]; exact ⟨le_refl _, List.suffix_refl _⟩
    · rw [h] at hpos; exact absurd hpos (lt_irrefl _)

/-- C10, with two clients and two workers: a deregistration leaves one client,
and the two threads and workers stay. -/
theorem C10_pool_never_shrinks_with_clients_witness :
    0 < (step 4 PoolState.two_clients Call.remove_client).active_client_count_ ∧
    PoolState.two_clients.active_thread_count_ ≤
      (step 4 PoolState.two_clients Call.remove_client).active_thread_count_ ∧
    PoolState.two_clients.thread_pool_ <:+
      (step 4 PoolState.two_clients Call.remove_client).thread_pool_ :=
  have hpos : 0 < (step 4 PoolState.two_clients Call.remove_client).active_client_count_ := by
    simp [step, remove_client, ShutdownPoolLocked, PoolState.two_clients, u32_dec, UINT32_MOD]
  ⟨hpos, (C10_pool_never_shrinks_with_clients 4 PoolState.two_clients Call.remove_client
    hpos).1⟩

/-! ## The worker loop -/

/-- After a packet is received, whatever is done with it, `Main` goes on with
the next turn of its loop. -/
theorem Main_packet (k : PortConsts) (turn : Turn) (rest : List Turn)
    (hv : turn.port_valid = true) (hw : turn.wait_res = NO_ERROR) :
    Main k (turn :: rest) =
      ((Main k rest).1,
       WorkerEffect.wait_packet turn.pkt :: (handlePacket k turn ++ (Main k rest).2)) := by
  simp [Main, hv, hw]

theorem Main_port_invalid (k : PortConsts) (turn : Turn) (rest : List Turn)
    (hv : turn.port_valid = false) : Main k (turn :: rest) = (some 0, []) := by
  simp [Main, hv]

theorem Main_wait_failed (k : PortConsts) (turn : Turn) (rest : List Turn)
    (hv : turn.port_valid = true) (hw : turn.wait_res ≠ NO_ERROR) :
    Main k (turn :: rest) = (some 0, [WorkerEffect.wait_failed turn.wait_res]) := by
  simp [Main, hv, hw]

/-- The value `Main` returns is 0, when it returns. -/
theorem Main_returns_zero (k : PortConsts) (turns : List Turn) :
    (Main k turns).1 = none ∨ (Main k turns).1 = some 0 := by
  induction turns with
  | nil => exact Or.inl rfl
  | cons turn rest ih =>
    cases hv : turn.port_valid with
    | false => rw [Main_port_invalid k turn rest hv]; exact Or.inr rfl
    | true =>
      by_cases hw : turn.wait_res = NO_ERROR
      · rw [Main_packet k turn rest hv hw]; exact ih
      · rw [Main_wait_failed k turn rest hv hw]; exact Or.inr rfl

/-- The loop of `Main` ends exactly when the port is invalid at a loop test or
a wait fails. -/
theorem Main_returns_iff (k : PortConsts) (turns : List Turn) :
    (Main k turns).1 = some 0 ↔
      ∃ turn ∈ turns, turn.port_valid = false ∨ turn.wait_res ≠ NO_ERROR := by
  induction turns with
  | nil => simp [Main]
  | cons turn rest ih =>
    cases hv : turn.port_valid with
    | false =>
      rw [Main_port_invalid k turn rest hv]
      simp [hv]
    | true =>
      by_cases hw : turn.wait_res = NO_ERROR
      · rw [Main_packet k turn rest hv hw]
        simp [hv, hw, ih]
      · rw [Main_wait_failed k turn rest hv hw]
        simp [hw]

/-- With the port valid at every loop test, the calls of `Main` are those of
the turns before the first failed wait, then the failed wait. -/
theorem Main_trace (k : PortConsts) (turns : List Turn)
    (hvalid : ∀ turn ∈ turns, turn.port_valid = true) :
    (Main k turns).2 = handledTrace k turns ++ failedWait turns := by
  induction turns with
  | nil => rfl
  | cons turn rest ih =>
    have hv : turn.port_valid = true := hvalid turn (List.mem_cons_self _ _)
    have ih' := ih fun t ht => hvalid t (List.mem_cons_of_mem _ ht)
    by_cases hw : turn.wait_res = NO_ERROR
    · rw [Main_packet k turn rest hv hw]
      simp only [handledTrace, failedWait, List.takeWhile_cons, List.dropWhile_cons, hw,
        decide_True, if_true, List.flatMap_cons, List.cons_append, List.append_assoc] at ih' ⊢
      rw [ih']
    · rw [Main_wait_failed k turn rest hv hw]
      simp [handledTrace, failedWait, List.takeWhile_cons, List.dropWhile_cons, hw]

/-- When a wait fails, `failedWait` is the first failed wait. -/
theorem failedWait_spec (turns : List Turn)
    (hfail : ∃ turn ∈ turns, turn.wait_res ≠ NO_ERROR) :
    ∃ turn ∈ turns, turn.wait_res ≠ NO_ERROR ∧
      failedWait turns = [WorkerEffect.wait_failed turn.wait_res] := by
  induction turns with
  | nil =>
    obtain ⟨turn, hmem, -⟩ := hfail
    exact absurd hmem (List.not_mem_nil _)
  | cons t rest ih =>
    by_cases hw : t.wait_res = NO_ERROR
    · have hrest : ∃ turn ∈ rest, turn.wait_res ≠ NO_ERROR := by
        obtain ⟨turn, hmem, hne⟩ := hfail
        rcases List.mem_cons.1 hmem with h | h
        · subst h; exact absurd hw hne
        · exact ⟨turn, h, hne⟩
      obtain ⟨turn, hmem, hne, heq⟩ := ih hrest
      refine ⟨turn, List.mem_cons_of_mem _ hmem, hne, ?_⟩
      rw [← heq]
      simp [failedWait, List.dropWhile_cons, hw]
    · refine ⟨t, List.mem_cons_self _ _, hw, ?_⟩
      simp [failedWait, List.dropWhile_cons, hw]

/-- C13: in `Main`, for a successfully received packet of type
`MX_PORT_PKT_TYPE_IOSN` whose key resolves to an active channel and whose
signals include `MX_CHANNEL_PEER_CLOSED` (whatever the other bits), the calls
made are the lookup and one `Deactivate(true)` on that channel, no `Process`;
and the loop goes on with the next turn. -/
theorem C13_peer_closed_deactivates (k : PortConsts) (turn : Turn) (rest : List Turn)
    (channel : DriverChannel)
    (hv : turn.port_valid = true) (hw : turn.wait_res = NO_ERROR)
    (ht : turn.pkt.hdr.type = k.MX_PORT_PKT_TYPE_IOSN)
    (hch : turn.channel = some channel)
    (hs : turn.pkt.signals &&& k.MX_CHANNEL_PEER_CLOSED ≠ 0) :
    handlePacket k turn =
      [WorkerEffect.GetActiveChannel turn.pkt.hdr.key (some channel),
       WorkerEffect.Deactivate channel true] ∧
    (∀ c p r, WorkerEffect.Process c p r ∉ handlePacket k turn) ∧
    Main k (turn :: rest) =
      ((Main k rest).1,
       WorkerEffect.wait_packet turn.pkt ::
         WorkerEffect.GetActiveChannel turn.pkt.hdr.key (some channel) ::
         WorkerEffect.Deactivate channel true :: (Main k rest).2) := by
  have h : handlePacket k turn =
      [WorkerEffect.GetActiveChannel turn.pkt.hdr.key (some channel),
       WorkerEffect.Deactivate channel true] := by
    simp [handlePacket, ht, hch, hs]
  refine ⟨h, ?_, ?_⟩
  · intro c p r hmem
    rw [h] at hmem
    simp at hmem
  · rw [Main_packet k turn rest hv hw, h]
    rfl

/-- C13, Scenario E: a packet for channel 7 with the peer-closed bit and
another bit set; the worker looks the channel up, deactivates it, and waits
again (here the next wait fails). -/
theorem C13_peer_closed_deactivates_witness :
    handlePacket PortConsts.sample (Turn.io 5 NO_ERROR) =
      [WorkerEffect.GetActiveChannel 7 (some ⟨7⟩), WorkerEffect.Deactivate ⟨7⟩ true] ∧
    Main PortConsts.sample [Turn.io 5 NO_ERROR, Turn.waitFails] =
      (some 0,
       [WorkerEffect.wait_packet (Turn.io 5 NO_ERROR).pkt,
        WorkerEffect.GetActiveChannel 7 (some ⟨7⟩), WorkerEffect.Deactivate ⟨7⟩ true,
        WorkerEffect.wait_failed ERR_INTERNAL]) :=
  have h := C13_peer_closed_deactivates PortConsts.sample (Turn.io 5 NO_ERROR)
    [Turn.waitFails] ⟨7⟩ rfl rfl rfl rfl (by decide)
  ⟨h.1, h.2.2⟩

/-- C14: in `Main`, for a successfully received packet of type
`MX_PORT_PKT_TYPE_IOSN` whose key resolves to an active channel and whose
signals do not include `MX_CHANNEL_PEER_CLOSED`, the calls made are the
lookup, one `Process` on that channel with that packet, and then one
`Deactivate(true)` on that channel exactly when `Process` returned a status
other than `NO_ERROR`; no other channel is touched, and the loop goes on with
the next turn whatever `Process` returned. -/
theorem C14_process_then_deactivate_on_failure (k : PortConsts) (turn : Turn)
    (rest : List Turn) (channel : DriverChannel)
    (hv : turn.port_valid = true) (hw : turn.wait_res = NO_ERROR)
    (ht : turn.pkt.hdr.type = k.MX_PORT_PKT_TYPE_IOSN)
    (hch : turn.channel = some channel)
    (hs : turn.pkt.signals &&& k.MX_CHANNEL_PEER_CLOSED = 0) :
    handlePacket k turn =
      WorkerEffect.GetActiveChannel turn.pkt.hdr.key (some channel) ::
      WorkerEffect.Process channel turn.pkt turn.process_res ::
      (if turn.process_res ≠ NO_ERROR then [WorkerEffect.Deactivate channel true] else []) ∧
    (WorkerEffect.Deactivate channel true ∈ handlePacket k turn ↔
      turn.process_res ≠ NO_ERROR) ∧
    (handlePacket k turn).count (WorkerEffect.Process channel turn.pkt turn.process_res) = 1 ∧
    (handlePacket k turn).count (WorkerEffect.Deactivate channel true) ≤ 1 ∧
    (∀ c p r, WorkerEffect.Process c p r ∈ handlePacket k turn → c = channel ∧ p = turn.pkt) ∧
    (∀ c b, WorkerEffect.Deactivate c b ∈ handlePacket k turn → c = channel ∧ b = true) ∧
    Main k (turn :: rest) =
      ((Main k rest).1,
       WorkerEffect.wait_packet turn.pkt :: (handlePacket k turn ++ (Main k rest).2)) := by
  have h : handlePacket k turn =
      WorkerEffect.GetActiveChannel turn.pkt.hdr.key (some channel) ::
      WorkerEffect.Process channel turn.pkt turn.process_res ::
      (if turn.process_res ≠ NO_ERROR then [WorkerEffect.Deactivate channel true] else []) := by
    by_cases hp : turn.process_res = NO_ERROR <;> simp [handlePacket, ht, hch, hs, hp]
  refine ⟨h, ?_, ?_, ?_, ?_, ?_, Main_packet k turn rest hv hw⟩
  · rw [h]
    by_cases hp : turn.process_res = NO_ERROR <;> simp [hp]
  · rw [h]
    by_cases hp : turn.process_res = NO_ERROR <;> simp [hp, List.count_cons]
  · rw [h]
    by_cases hp : turn.process_res = NO_ERROR <;> simp [hp, List.count_cons]
  · intro c p r hmem
    rw [h] at hmem
    by_cases hp : turn.process_res = NO_ERROR <;> simp [hp] at hmem <;> exact ⟨hmem.1, hmem.2.1⟩
  · intro c b hmem
    rw [h] at hmem
    by_cases hp : turn.process_res = NO_ERROR <;> simp [hp] at hmem
    exact hmem

/-- C14, a packet for channel 7 without the peer-closed bit, on which
`Process` fails: the worker processes it, deactivates the channel, and waits
again (here the next wait fails). -/
theorem C14_process_then_deactivate_on_failure_witness :
    handlePacket PortConsts.sample (Turn.io 1 ERR_INTERNAL) =
      [WorkerEffect.GetActiveChannel 7 (some ⟨7⟩),
       WorkerEffect.Process ⟨7⟩ (Turn.io 1 ERR_INTERNAL).pkt ERR_INTERNAL,
       WorkerEffect.Deactivate ⟨7⟩ true] ∧
    Main PortConsts.sample [Turn.io 1 ERR_INTERNAL, Turn.waitFails] =
      ((Main PortConsts.sample [Turn.waitFails]).1,
       WorkerEffect.wait_packet (Turn.io 1 ERR_INTERNAL).pkt ::
         (handlePacket PortConsts.sample (Turn.io 1 ERR_INTERNAL) ++
           (Main PortConsts.sample [Turn.waitFails]).2)) :=
  have h := C14_process_then_deactivate_on_failure PortConsts.sample (Turn.io 1 ERR_INTERNAL)
    [Turn.waitFails] ⟨7⟩ rfl rfl rfl rfl (by decide)
  ⟨h.1, h.2.2.2.2.2.2⟩

/-- C15: in `Main`, for a successfully received packet of type
`MX_PORT_PKT_TYPE_IOSN` whose key resolves to no active channel, the only call
made is the lookup: no `Process` and no `Deactivate` on any channel; and the
loop goes on with the next turn. -/
theorem C15_lookup_miss_is_dropped (k : PortConsts) (turn : Turn) (rest : List Turn)
    (hv : turn.port_valid = true) (hw : turn.wait_res = NO_ERROR)
    (ht : turn.pkt.hdr.type = k.MX_PORT_PKT_TYPE_IOSN)
    (hch : turn.channel = none) :
    handlePacket k turn = [WorkerEffect.GetActiveChannel turn.pkt.hdr.key none] ∧
    (∀ c p r, WorkerEffect.Process c p r ∉ handlePacket k turn) ∧
    (∀ c b, WorkerEffect.Deactivate c b ∉ handlePacket k turn) ∧
    Main k (turn :: rest) =
      ((Main k rest).1,
       WorkerEffect.wait_packet turn.pkt ::
         WorkerEffect.GetActiveChannel turn.pkt.hdr.key none :: (Main k rest).2) := by
  have h : handlePacket k turn = [WorkerEffect.GetActiveChannel turn.pkt.hdr.key none] := by
    simp [handlePacket, ht, hch]
  refine ⟨h, ?_, ?_, ?_⟩
  · intro c p r hmem
    rw [h] at hmem
    simp at hmem
  · intro c b hmem
    rw [h] at hmem
    simp at hmem
  · rw [Main_packet k turn rest hv hw, h]
    rfl

/-- C15, Scenario D: a packet for key 9, which resolves to no channel; the
worker looks it up and waits again (here the next wait fails). -/
theorem C15_lookup_miss_is_dropped_witness :
    handlePacket PortConsts.sample Turn.miss = [WorkerEffect.GetActiveChannel 9 none] ∧
    Main PortConsts.sample [Turn.miss, Turn.waitFails] =
      (some 0,
       [WorkerEffect.wait_packet Turn.miss.pkt, WorkerEffect.GetActiveChannel 9 none,
        WorkerEffect.wait_failed ERR_INTERNAL]) :=
  have h := C15_lookup_miss_is_dropped PortConsts.sample Turn.miss [Turn.waitFails]
    rfl rfl rfl rfl
  ⟨h.1, h.2.2.2⟩

/-- C16: in `Main`, for a successfully received packet whose type is not
`MX_PORT_PKT_TYPE_IOSN`, no call is made at all, whatever its key and signals:
no lookup, no `Process`, no `Deactivate`; and the loop goes on with the next
turn. -/
theorem C16_unexpected_type_is_ignored (k : PortConsts) (turn : Turn) (rest : List Turn)
    (hv : turn.port_valid = true) (hw : turn.wait_res = NO_ERROR)
    (ht : turn.pkt.hdr.type ≠ k.MX_PORT_PKT_TYPE_IOSN) :
    handlePacket k turn = [] ∧
    Main k (turn :: rest) =
      ((Main k rest).1, WorkerEffect.wait_packet turn.pkt :: (Main k rest).2) := by
  have h : handlePacket k turn = [] := by
    simp [handlePacket, ht]
  refine ⟨h, ?_⟩
  rw [Main_packet k turn rest hv hw, h]
  rfl

/-- C16, a packet of type 2 for the active channel 7 with the peer-closed bit
set: nothing is done with it, and the worker waits again (here the next wait
fails). -/
theorem C16_unexpected_type_is_ignored_witness :
    handlePacket PortConsts.sample Turn.unexpected = [] ∧
    Main PortConsts.sample [Turn.unexpected, Turn.waitFails] =
      (some 0,
       [WorkerEffect.wait_packet Turn.unexpected.pkt, WorkerEffect.wait_failed ERR_INTERNAL]) :=
  C16_unexpected_type_is_ignored PortConsts.sample Turn.unexpected [Turn.waitFails]
    rfl rfl (by decide)

/-- C17: run `Main` against finitely many turns with the port valid at each
loop test, one of which has a failed wait.  Then `Main` returns 0, and its
calls are: for each turn before the first failed wait, in order, the wait and
what is done with its packet; then the failed wait; nothing after it.  And for
every run, `Main` returns exactly when the port is invalid at a loop test or a
wait fails: no outcome of a packet ends the loop. -/
theorem C17_loop_ends_at_first_failed_wait (k : PortConsts) (turns : List Turn)
    (hvalid : ∀ turn ∈ turns, turn.port_valid = true)
    (hfail : ∃ turn ∈ turns, turn.wait_res ≠ NO_ERROR) :
    (Main k turns).1 = some 0 ∧
    (Main k turns).2 = handledTrace k turns ++ failedWait turns ∧
    (∃ turn ∈ turns, turn.wait_res ≠ NO_ERROR ∧
      failedWait turns = [WorkerEffect.wait_failed turn.wait_res]) ∧
    (∀ run : List Turn, (Main k run).1 = some 0 ↔
      ∃ turn ∈ run, turn.port_valid = false ∨ turn.wait_res ≠ NO_ERROR) ∧
    (∀ run : List Turn, (Main k run).1 = none ∨ (Main k run).1 = some 0) := by
  refine ⟨?_, Main_trace k turns hvalid, failedWait_spec turns hfail, Main_returns_iff k,
    Main_returns_zero k⟩
  obtain ⟨turn, hmem, hw⟩ := hfail
  exact (Main_returns_iff k turns).2 ⟨turn, hmem, Or.inr hw⟩

/-- C17, six turns: a peer-closed packet, a packet of unexpected type, a
lookup miss, a packet on which `Process` fails, then a failed wait, then one
more packet.  The four packets before the failed wait are handled, the one
after it is not, and `Main` returns 0. -/
theorem C17_loop_ends_at_first_failed_wait_witness :
    (Main PortConsts.sample
      [Turn.io 5 NO_ERROR, Turn.unexpected, Turn.miss, Turn.io 1 ERR_INTERNAL,
        Turn.waitFails, Turn.io 1 NO_ERROR]).1 = some 0 ∧
    (Main PortConsts.sample
      [Turn.io 5 NO_ERROR, Turn.unexpected, Turn.miss, Turn.io 1 ERR_INTERNAL,
        Turn.waitFails, Turn.io 1 NO_ERROR]).2 =
      [WorkerEffect.wait_packet (Turn.io 5 NO_ERROR).pkt,
       WorkerEffect.GetActiveChannel 7 (some ⟨7⟩),
       WorkerEffect.Deactivate ⟨7⟩ true,
       WorkerEffect.wait_packet Turn.unexpected.pkt,
       WorkerEffect.wait_packet Turn.miss.pkt,
       WorkerEffect.GetActiveChannel 9 none,
       WorkerEffect.wait_packet (Turn.io 1 ERR_INTERNAL).pkt,
       WorkerEffect.GetActiveChannel 7 (some ⟨7⟩),
       WorkerEffect.Process ⟨7⟩ (Turn.io 1 ERR_INTERNAL).pkt ERR_INTERNAL,
       WorkerEffect.Deactivate ⟨7⟩ true,
       WorkerEffect.wait_failed ERR_INTERNAL] :=
  have h := C17_loop_ends_at_first_failed_wait PortConsts.sample
    [Turn.io 5 NO_ERROR, Turn.unexpected, Turn.miss, Turn.io 1 ERR_INTERNAL,
      Turn.waitFails, Turn.io 1 NO_ERROR]
    (by decide) ⟨Turn.waitFails, by decide, by decide⟩
  ⟨h.1, h.2.1.trans (by decide)⟩

/-! ## More on the pool -/

theorem stepPool_inv (core_count : Nat) (s : PoolState) (c : PoolCall)
    (h : PoolInv core_count s) : PoolInv core_count (stepPool core_count s c) := by
  cases c with
  | add_client env => exact AddClientLocked_inv core_count env s h
  | remove_client => exact remove_client_inv core_count s h
  | shutdown_pool => exact ShutdownPoolLocked_inv core_count s h

theorem runPool_inv (core_count : Nat) (calls : List PoolCall) (s : PoolState)
    (h : PoolInv core_count s) : PoolInv core_count (runPool core_count s calls) := by
  induction calls generalizing s with
  | nil => exact h
  | cons c calls ih => exact ih (stepPool core_count s c) (stepPool_inv core_count s c h)

/-- In a state that satisfies the invariant, what the growth loop of one call
does: nothing, or one failed allocation, or one allocation and one thread
creation, for the worker whose index is the thread count before the call. -/
theorem growLoop_one_turn (core_count : Nat) (spawn : Nat → SpawnOutcome) (s : PoolState)
    (h : PoolInv core_count s) :
    ((growLoop core_count spawn (growEntry s)).trace = [] ∧
      (growLoop core_count spawn (growEntry s)).state.active_thread_count_ =
        s.active_thread_count_ ∧
      (growLoop core_count spawn (growEntry s)).state.thread_pool_ = s.thread_pool_) ∨
    ((growLoop core_count spawn (growEntry s)).trace =
        [Effect.new_ClientThread s.active_thread_count_ false] ∧
      (growLoop core_count spawn (growEntry s)).state.active_thread_count_ =
        s.active_thread_count_ ∧
      (growLoop core_count spawn (growEntry s)).state.thread_pool_ = s.thread_pool_) ∨
    (∃ m, m ≠ thrd_success ∧
      (growLoop core_count spawn (growEntry s)).trace =
        [Effect.new_ClientThread s.active_thread_count_ true,
         Effect.thrd_create ⟨s.active_thread_count_⟩ m] ∧
      (growLoop core_count spawn (growEntry s)).state.active_thread_count_ =
        s.active_thread_count_ ∧
      (growLoop core_count spawn (growEntry s)).state.thread_pool_ = s.thread_pool_) ∨
    ((growLoop core_count spawn (growEntry s)).trace =
        [Effect.new_ClientThread s.active_thread_count_ true,
         Effect.thrd_create ⟨s.active_thread_count_⟩ thrd_success] ∧
      (growLoop core_count spawn (growEntry s)).state.active_thread_count_ =
        s.active_thread_count_ + 1 ∧
      (growLoop core_count spawn (growEntry s)).state.thread_pool_ =
        ⟨s.active_thread_count_⟩ :: s.thread_pool_) := by
  have hspec := growLoop_spec core_count spawn (growEntry s)
  generalize growLoop core_count spawn (growEntry s) = r at hspec ⊢
  obtain ⟨res, ⟨p, c, t, l⟩, tr⟩ := r
  obtain ⟨j, -, ht, hpool, -, hj, hres⟩ := hspec
  have hle := u32_inc_le s.active_client_count_
  have hdm := h.demand_met
  have htl := h.thread_le
  simp only [growEntry] at ht hpool hj hres
  subst ht hpool
  simp only
  rcases hres with ⟨-, -, htr, hstop⟩ | ⟨h1, h2, -, hr⟩
  · subst htr
    have hj1 : j = 0 ∨ j = 1 := by omega
    rcases hj1 with hj0 | hj1
    · subst hj0
      exact Or.inl ⟨spawnTrace_zero _, rfl, by rw [spawned_zero]; rfl⟩
    · subst hj1
      refine Or.inr (Or.inr (Or.inr ⟨?_, rfl, ?_⟩))
      · rw [spawnTrace_succ, spawnTrace_zero]
      · rw [spawned_succ, spawned_zero]; rfl
  · have hj0 : j = 0 := by omega
    subst hj0
    rcases hr with ⟨-, -, htr⟩ | ⟨-, -, hm, htr⟩
    · subst htr
      refine Or.inr (Or.inl ⟨?_, rfl, ?_⟩)
      · rw [spawnTrace_zero]; rfl
      · rw [spawned_zero]; rfl
    · subst htr
      refine Or.inr (Or.inr (Or.inl ⟨_, hm, ?_, rfl, ?_⟩))
      · rw [spawnTrace_zero]; rfl
      · rw [spawned_zero]; rfl

theorem spawned_map_id (t : Nat) :
    (spawned 0 t).map ClientThread.id = (List.range t).reverse := by
  simp [spawned, List.range_eq_range', List.map_reverse, Function.comp_def]

/-- One call keeps: the client count is at most the number of calls made, and
without clients there are no threads; as long as the client count cannot wrap. -/
theorem step_count_inv (core_count : Nat) (s : PoolState) (c : Call) (n : Nat)
    (hinv : PoolInv core_count s) (hn : s.active_client_count_ ≤ n)
    (hz : s.active_client_count_ = 0 → s.active_thread_count_ = 0)
    (hlt : n + 1 < UINT32_MOD) :
    (step core_count s c).active_client_count_ ≤ n + 1 ∧
    ((step core_count s c).active_client_count_ = 0 →
      (step core_count s c).active_thread_count_ = 0) := by
  cases c with
  | add_client env =>
    simp only [step]
    rcases AddClientLocked_cases env s with ⟨hp, he⟩ | hg
    · rw [AddClientLocked_port_fail core_count env s hp he]
      exact ⟨Nat.le_succ_of_le hn, hz⟩
    · rw [(AddClientLocked_grow core_count env s hg).2.1]
      obtain ⟨-, -, hfail, hok, -, -, -⟩ := growLoop_of_inv core_count env.spawn s hinv
      by_cases hr : (growLoop core_count env.spawn (growEntry s)).res = NO_ERROR
      · have hc := hok hr
        have hinc : u32_inc s.active_client_count_ = s.active_client_count_ + 1 := by
          unfold u32_inc UINT32_MOD at *
          omega
        rw [hc, hinc]
        exact ⟨by omega, fun h => absurd h (Nat.succ_ne_zero _)⟩
      · rw [hfail hr]
        exact ⟨Nat.le_succ_of_le hn, hz⟩
  | remove_client =>
    simp only [step]
    unfold remove_client
    have hc1 : (if s.active_client_count_ > 0 then u32_dec s.active_client_count_
        else s.active_client_count_) ≤ s.active_client_count_ := by
      split
      · rename_i hpos
        rw [u32_dec_le hpos hinv.client_lt]
        omega
      · exact le_refl _
    rcases ShutdownPoolLocked_cases
      { s with active_client_count_ :=
          if s.active_client_count_ > 0 then u32_dec s.active_client_count_
          else s.active_client_count_ } with ⟨hpos, h⟩ | ⟨-, hp, h⟩ | ⟨-, -, h⟩
    · rw [h]
      simp only at hpos ⊢
      exact ⟨by omega, fun h0 => by omega⟩
    · rw [h]
      simp only at hp ⊢
      exact ⟨by omega, fun _ => (hinv.closed_idle hp).2⟩
    · rw [h]
      exact ⟨Nat.zero_le _, fun _ => rfl⟩

theorem run_count_inv (core_count : Nat) (calls : List Call) (s : PoolState) (n : Nat)
    (hinv : PoolInv core_count s) (hn : s.active_client_count_ ≤ n)
    (hz : s.active_client_count_ = 0 → s.active_thread_count_ = 0)
    (hlt : n + calls.length < UINT32_MOD) :
    (run core_count s calls).active_client_count_ = 0 →
      (run core_count s calls).active_thread_count_ = 0 := by
  induction calls generalizing s n with
  | nil => exact hz
  | cons c calls ih =>
    simp only [List.length_cons] at hlt
    obtain ⟨h1, h2⟩ := step_count_inv core_count s c n hinv hn hz (by omega)
    exact ih (step core_count s c) (n + 1) (step_inv core_count s c hinv) h1 h2 (by omega)

/-- Three calls evaluated: a client registers, leaves, and the pool is shut down again. -/
theorem runPool_add_remove_shutdown :
    runPool 4 PoolState.initial
      [PoolCall.add_client AddEnv.success, PoolCall.remove_client, PoolCall.shutdown_pool] =
      PoolState.initial := by
  simp [runPool, stepPool, AddClientLocked, growLoop, remove_client, ShutdownPoolLocked,
    joinLoop, mx_port.reset, PoolState.initial, AddEnv.success, u32_inc, u32_dec, UINT32_MOD,
    mx_system_get_num_cpus, NO_ERROR, thrd_success]

/-- C11: with a fixed core count (a `uint32_t`), in every pool state reachable
from the initial state by `AddClientLocked` / `remove_client` calls, whatever
the outcomes of port creation, allocation and thread creation,
`min(active_client_count_, core_count) ≤ active_thread_count_ ≤ core_count`. -/
theorem C11_threads_between_demand_and_cores (core_count : Nat) (s : PoolState)
    (hcores : core_count < UINT32_MOD) (hr : Reachable core_count s) :
    min s.active_client_count_ core_count ≤ s.active_thread_count_ ∧
    s.active_thread_count_ ≤ core_count := by
  have hinv := Reachable_inv hr
  have h1 := hinv.thread_le
  have h2 := hinv.demand_met
  rw [mx_system_get_num_cpus_of_lt hcores] at h1 h2
  exact ⟨by rcases h2 with h2 | h2 <;> simp [h2], h1⟩

/-- C11, with two clients and two workers on four cores. -/
theorem C11_threads_between_demand_and_cores_witness :
    min PoolState.two_clients.active_client_count_ 4 ≤
      PoolState.two_clients.active_thread_count_ ∧
    PoolState.two_clients.active_thread_count_ ≤ 4 :=
  C11_threads_between_demand_and_cores 4 PoolState.two_clients (by decide)
    two_clients_reachable

/-- C12 (as stated, refuted): `active_client_count_` is a `uint32_t`; after
`2^32` successful registrations on four cores it has wrapped round to 0 while
four threads run. -/
theorem C12_counterexample :
    1 ≤ 4 ∧
    (add_clients 4 4294967296).active_client_count_ = 0 ∧
    (add_clients 4 4294967296).active_thread_count_ ≠ 0 := by
  rw [(add_clients_spec 4 4294967296).2.2.1, (add_clients_spec 4 4294967296).2.2.2]
  decide

/-- C12 (amended): with `1 ≤ core_count` (a `uint32_t`), after every sequence
of fewer than `2^32` `AddClientLocked` / `remove_client` calls from the initial
state, `active_thread_count_ = 0` if and only if `active_client_count_ = 0`;
and after a sequence of any length, `active_thread_count_ = 0` implies
`active_client_count_ = 0`. -/
theorem C12_no_threads_iff_no_clients (core_count : Nat) (calls : List Call)
    (h1 : 1 ≤ core_count) (hcores : core_count < UINT32_MOD)
    (hlen : calls.length < UINT32_MOD) :
    ((run core_count PoolState.initial calls).active_thread_count_ = 0 ↔
      (run core_count PoolState.initial calls).active_client_count_ = 0) ∧
    (∀ more : List Call,
      (run core_count PoolState.initial more).active_thread_count_ = 0 →
        (run core_count PoolState.initial more).active_client_count_ = 0) := by
  have hdir : ∀ more : List Call,
      (run core_count PoolState.initial more).active_thread_count_ = 0 →
        (run core_count PoolState.initial more).active_client_count_ = 0 := by
    intro more ht
    have hinv := run_inv core_count more PoolState.initial (PoolInv_initial core_count)
    have h2 := hinv.demand_met
    rw [mx_system_get_num_cpus_of_lt hcores, ht] at h2
    omega
  refine ⟨⟨hdir calls, ?_⟩, hdir⟩
  exact run_count_inv core_count calls PoolState.initial 0 (PoolInv_initial core_count)
    (le_refl _) (fun _ => rfl) (by omega)

/-- C12 (amended), on two cores, after one registration and one deregistration. -/
theorem C12_no_threads_iff_no_clients_witness :
    (run 2 PoolState.initial
      [Call.add_client AddEnv.success, Call.remove_client]).active_thread_count_ = 0 ↔
    (run 2 PoolState.initial
      [Call.add_client AddEnv.success, Call.remove_client]).active_client_count_ = 0 :=
  (C12_no_threads_iff_no_clients 2 [Call.add_client AddEnv.success, Call.remove_client]
    (by decide) (by decide) (by decide)).1

/-- In a state that satisfies the invariant, what one `AddClientLocked` call
does: possibly a port creation, then at most one turn of the growth loop. -/
theorem AddClientLocked_one_turn (core_count : Nat) (env : AddEnv) (s : PoolState)
    (h : PoolInv core_count s) :
    ∃ pre g, (pre = [] ∨ pre = [Effect.port_create env.port_create]) ∧
      (AddClientLocked core_count env s).trace = pre ++ g ∧
      ((g = [] ∧
          (AddClientLocked core_count env s).state.active_thread_count_ =
            s.active_thread_count_ ∧
          (AddClientLocked core_count env s).state.thread_pool_ = s.thread_pool_) ∨
       (g = [Effect.new_ClientThread s.active_thread_count_ false] ∧
          (AddClientLocked core_count env s).state.active_thread_count_ =
            s.active_thread_count_ ∧
          (AddClientLocked core_count env s).state.thread_pool_ = s.thread_pool_) ∨
       (∃ m, g = [Effect.new_ClientThread s.active_thread_count_ true,
                  Effect.thrd_create ⟨s.active_thread_count_⟩ m] ∧
          (AddClientLocked core_count env s).state.active_thread_count_ =
            s.active_thread_count_ ∧
          (AddClientLocked core_count env s).state.thread_pool_ = s.thread_pool_) ∨
       (g = [Effect.new_ClientThread s.active_thread_count_ true,
             Effect.thrd_create ⟨s.active_thread_count_⟩ thrd_success] ∧
          (AddClientLocked core_count env s).state.active_thread_count_ =
            s.active_thread_count_ + 1 ∧
          (AddClientLocked core_count env s).state.thread_pool_ =
            ⟨s.active_thread_count_⟩ :: s.thread_pool_)) := by
  rcases AddClientLocked_cases env s with ⟨hp, he⟩ | hg
  · rw [AddClientLocked_port_fail core_count env s hp he]
    exact ⟨[Effect.port_create env.port_create], [], Or.inr rfl, rfl, Or.inl ⟨rfl, rfl, rfl⟩⟩
  · obtain ⟨-, hst, htr⟩ := AddClientLocked_grow core_count env s hg
    rw [hst, htr]
    refine ⟨_, (growLoop core_count env.spawn (growEntry s)).trace, ?_, rfl, ?_⟩
    · split
      · exact Or.inl rfl
      · exact Or.inr rfl
    · rcases growLoop_one_turn core_count env.spawn s h with
        h1 | h1 | ⟨m, -, h1⟩ | h1
      · exact Or.inl h1
      · exact Or.inr (Or.inl h1)
      · exact Or.inr (Or.inr (Or.inl ⟨m, h1⟩))
      · exact Or.inr (Or.inr (Or.inr h1))

/-- C19: in every pool state reachable from the initial state by
`AddClientLocked` / `remove_client` / `ShutdownPoolLocked` calls, whatever the
outcomes of port creation, allocation and thread creation: if the port is
invalid then the worker list is empty and `active_thread_count_ = 0`; and a
`ShutdownPoolLocked` run from that state never evaluates its debug assertion
to false. -/
theorem C19_debug_assert_holds (core_count : Nat) (calls : List PoolCall) :
    ((runPool core_count PoolState.initial calls).port_.is_valid = false →
      (runPool core_count PoolState.initial calls).thread_pool_ = [] ∧
      (runPool core_count PoolState.initial calls).active_thread_count_ = 0) ∧
    Effect.debug_assert false ∉
      (ShutdownPoolLocked (runPool core_count PoolState.initial calls)).2 := by
  have hinv := runPool_inv core_count calls PoolState.initial (PoolInv_initial core_count)
  have hempty : (runPool core_count PoolState.initial calls).port_.is_valid = false →
      (runPool core_count PoolState.initial calls).thread_pool_ = [] ∧
      (runPool core_count PoolState.initial calls).active_thread_count_ = 0 := by
    intro hp
    have ht := (hinv.closed_idle hp).2
    exact ⟨by rw [hinv.pool_eq, ht, spawned_zero], ht⟩
  refine ⟨hempty, ?_⟩
  rcases ShutdownPoolLocked_cases (runPool core_count PoolState.initial calls) with
    ⟨-, h⟩ | ⟨-, hp, h⟩ | ⟨-, -, h⟩
  · rw [h]
    simp
  · rw [h, (hempty hp).1]
    simp
  · rw [h]
    simp

/-- C19, after a registration, a deregistration and a direct shutdown on four
cores: the port is invalid, the list is empty and no thread is counted. -/
theorem C19_debug_assert_holds_witness :
    (runPool 4 PoolState.initial
      [PoolCall.add_client AddEnv.success, PoolCall.remove_client,
        PoolCall.shutdown_pool]).port_.is_valid = false ∧
    (runPool 4 PoolState.initial
      [PoolCall.add_client AddEnv.success, PoolCall.remove_client,
        PoolCall.shutdown_pool]).thread_pool_ = [] ∧
    (runPool 4 PoolState.initial
      [PoolCall.add_client AddEnv.success, PoolCall.remove_client,
        PoolCall.shutdown_pool]).active_thread_count_ = 0 :=
  have hp : (runPool 4 PoolState.initial
      [PoolCall.add_client AddEnv.success, PoolCall.remove_client,
        PoolCall.shutdown_pool]).port_.is_valid = false := by
    rw [runPool_add_remove_shutdown]
    rfl
  ⟨hp, (C19_debug_assert_holds 4
    [PoolCall.add_client AddEnv.success, PoolCall.remove_client, PoolCall.shutdown_pool]).1 hp⟩

/-- C20: in every pool state reachable from the initial state by
`AddClientLocked` / `remove_client` calls, one `AddClientLocked` call makes at
most one turn of its growth loop: it allocates at most one worker, creates at
most one thread, raises `active_thread_count_` by at most 1, and the worker it
allocates or creates has the thread count before the call as its index; it
leaves the list as it was or pushes that one worker in front.  The indices of
the workers in the list are `active_thread_count_ - 1, ..., 1, 0` from front to
back, so they are distinct, and the first worker after a full shutdown has
index 0 again. -/
theorem C20_one_worker_per_call (core_count : Nat) (env : AddEnv) (s : PoolState)
    (hr : Reachable core_count s) :
    (AddClientLocked core_count env s).trace.countP Effect.isAlloc ≤ 1 ∧
    (AddClientLocked core_count env s).trace.countP Effect.isThrdCreate ≤ 1 ∧
    s.active_thread_count_ ≤ (AddClientLocked core_count env s).state.active_thread_count_ ∧
    (AddClientLocked core_count env s).state.active_thread_count_ ≤
      s.active_thread_count_ + 1 ∧
    (∀ id ok, Effect.new_ClientThread id ok ∈ (AddClientLocked core_count env s).trace →
      id = s.active_thread_count_) ∧
    (∀ thread m, Effect.thrd_create thread m ∈ (AddClientLocked core_count env s).trace →
      thread.id = s.active_thread_count_) ∧
    ((AddClientLocked core_count env s).state.thread_pool_ = s.thread_pool_ ∨
      (AddClientLocked core_count env s).state.thread_pool_ =
        ⟨s.active_thread_count_⟩ :: s.thread_pool_) ∧
    s.thread_pool_.map ClientThread.id = (List.range s.active_thread_count_).reverse ∧
    (s.thread_pool_.map ClientThread.id).Nodup ∧
    (AddClientLocked core_count env s).state.thread_pool_.map ClientThread.id =
      (List.range (AddClientLocked core_count env s).state.active_thread_count_).reverse := by
  have hinv := Reachable_inv hr
  have hinv' := AddClientLocked_inv core_count env s hinv
  have hids : s.thread_pool_.map ClientThread.id =
      (List.range s.active_thread_count_).reverse := by
    rw [hinv.pool_eq, spawned_map_id]
  have hids' : (AddClientLocked core_count env s).state.thread_pool_.map ClientThread.id =
      (List.range (AddClientLocked core_count env s).state.active_thread_count_).reverse := by
    rw [hinv'.pool_eq, spawned_map_id]
  have hnodup : (s.thread_pool_.map ClientThread.id).Nodup := by
    rw [hids]
    exact List.nodup_reverse.2 (List.nodup_range _)
  obtain ⟨pre, g, hpre, htr, hcase⟩ := AddClientLocked_one_turn core_count env s hinv
  generalize AddClientLocked core_count env s = r at htr hcase hids' ⊢
  obtain ⟨res, ⟨p, c, t, l⟩, tr⟩ := r
  simp only at htr hcase hids' ⊢
  subst htr
  refine ⟨?_, ?_, ?_, ?_, ?_, ?_, ?_, hids, hnodup, hids'⟩
  all_goals
    rcases hpre with hpre | hpre <;>
    rcases hcase with ⟨h1, h2, h3⟩ | ⟨h1, h2, h3⟩ | ⟨m, h1, h2, h3⟩ | ⟨h1, h2, h3⟩ <;>
    subst hpre h1 h2 h3 <;>
    simp [Effect.isAlloc, Effect.isThrdCreate]

/-- C20, the third registration on four cores: at most one allocation, the
thread count rises by at most one, and the two workers in the list have the
indices 1, 0. -/
theorem C20_one_worker_per_call_witness :
    (AddClientLocked 4 AddEnv.success PoolState.two_clients).trace.countP Effect.isAlloc ≤ 1 ∧
    (AddClientLocked 4 AddEnv.success PoolState.two_clients).trace.countP
      Effect.isThrdCreate ≤ 1 ∧
    (AddClientLocked 4 AddEnv.success PoolState.two_clients).state.active_thread_count_ ≤
      PoolState.two_clients.active_thread_count_ + 1 ∧
    PoolState.two_clients.thread_pool_.map ClientThread.id =
      (List.range PoolState.two_clients.active_thread_count_).reverse :=
  have h := C20_one_worker_per_call 4 AddEnv.success PoolState.two_clients
    two_clients_reachable
  ⟨h.1, h.2.1, h.2.2.2.1, h.2.2.2.2.2.2.2.1⟩

end ClientThreadPool
